import Mathlib

/-
  Shallow embedding of the simulation core of the ld57 block-matching
  platformer (src/App.tsx).  Continuous coordinates are modelled as exact
  rationals, integer grid indices as integers; the per-tick mutation of the
  game state is modelled as explicit state passing.  Randomness
  (Math.random) is modelled as an oracle stream of rationals consumed via an
  index stored in the state.
-/

namespace LD57

/-! ## Constants (src/App.tsx, top of file) -/

def BLOCK_SIZE : ℚ := 64
def GRID_WIDTH : ℕ := 8
def MAX_BLOCKS : ℕ := 4
def SOLVE_TIME : ℕ := 30
def FALL_SPEED : ℚ := 5
def FLOAT_SPEED : ℚ := 8
def BLOCK_ROW_BUFFER : ℤ := 20
def JUMP_TIME : ℤ := 30
def WALLJUMP_TIME : ℤ := 30
def FLOATING_TIME : ℤ := 30
def THROW_SPEED : ℚ := 8

/-! ## Data model -/

inductive BlockColor
  | red
  | green
  | blue
  | yellow
deriving DecidableEq, Repr

inductive BlockState
  | idle
  | lifted
  | thrown
  | ground
  | falling
  | solving
deriving DecidableEq, Repr

inductive PlayerState
  | ground
  | jumping
  | falling
  | wallride
  | walljumping
  | floating
deriving DecidableEq, Repr

inductive Mode
  | intro
  | playing
  | gameover
deriving DecidableEq, Repr

structure Position where
  x : ℚ
  y : ℚ
  ix : ℤ
  iy : ℤ
deriving DecidableEq, Repr

structure Rectangle where
  x : ℚ
  y : ℚ
  width : ℚ
  height : ℚ
deriving DecidableEq, Repr

structure Block where
  id : ℕ
  pos : Position
  color : BlockColor
  state : BlockState
  timer : ℕ
  star : Bool
  tweenRect : Option Rectangle
deriving DecidableEq, Repr

/-- The player's carried-block list holds references to blocks of the
simulation's block collection; we model it as the list of their ids. -/
structure Player where
  pos : Position
  width : ℚ
  height : ℚ
  jumpTime : ℤ
  speed : ℚ
  state : PlayerState
  wallriding : Option ℚ
  blocks : List ℕ
deriving DecidableEq, Repr

structure Controller where
  up : ℕ
  down : ℕ
  left : ℕ
  right : ℕ
  a : ℕ
  b : ℕ
deriving DecidableEq, Repr

structure GameState where
  time : ℕ
  seed : ℕ
  mode : Mode
  player : Player
  cameraPos : Position
  blocks : List Block
  nextBlockId : ℕ
  bottomRow : ℤ
  finishLineRow : ℤ
  score : ℕ
deriving Repr

/-! ## Coordinate model (setPosition / addPosition) -/

def addPosition (dx dy : ℚ) (pos : Position) : Position :=
  { x := pos.x + dx
    y := pos.y + dy
    ix := ⌊(pos.x + dx) / BLOCK_SIZE⌋
    iy := ⌊(pos.y + dy) / BLOCK_SIZE⌋ }

def setPosition (x y : ℚ) (pos : Position) : Position :=
  { x := x
    y := y
    ix := ⌊x / BLOCK_SIZE⌋
    iy := ⌊y / BLOCK_SIZE⌋ }

/-! ## Rectangles and collision (checkAABB and friends) -/

def checkAABB (r1 r2 : Rectangle) : Bool :=
  decide (r1.x < r2.x + r2.width) && decide (r1.x + r1.width > r2.x) &&
  decide (r1.y < r2.y + r2.height) && decide (r1.y + r1.height > r2.y)

def blockRectangle (b : Block) : Rectangle :=
  { x := b.pos.x - BLOCK_SIZE * 0.5
    y := b.pos.y - BLOCK_SIZE
    width := BLOCK_SIZE
    height := BLOCK_SIZE }

def playerRectangle (p : Player) : Rectangle :=
  { x := p.pos.x - p.width * 0.5
    y := p.pos.y - BLOCK_SIZE * 0.9
    width := p.width
    height := BLOCK_SIZE * 0.9 }

/-! ## Block state predicates -/

def blockIsPickable (b : Block) : Bool :=
  decide (b.state = .idle) || decide (b.state = .ground) ||
  decide (b.state = .falling) || decide (b.state = .solving)

def blockIsSolvable (b : Block) : Bool :=
  decide (b.state = .idle) || decide (b.state = .ground) ||
  decide (b.state = .solving)

def blocksMatch (b1 b2 : Block) : Bool :=
  if blockIsSolvable b1 = false || blockIsSolvable b2 = false then false
  else decide (b1.color = b2.color)

/-! ## Visual rectangles (needed because blockSetState caches one) -/

def lerp (a b t : ℚ) : ℚ := a + (b - a) * t

def clamp01 (x : ℚ) : ℚ := max 0 (min 1 x)

def blockVisualTarget (b : Block) : Rectangle × ℚ :=
  let base : Rectangle :=
    { x := b.pos.x - BLOCK_SIZE * 0.5
      y := b.pos.y - BLOCK_SIZE
      width := BLOCK_SIZE
      height := BLOCK_SIZE }
  if b.state = .lifted then
    let w := base.width * 0.5
    let h := base.height * 0.5
    ({ x := b.pos.x - w * 0.5, y := b.pos.y - h, width := w, height := h }, 10)
  else if b.state = .thrown then
    let w := base.width * 0.25
    ({ x := b.pos.x - w * 0.5, y := b.pos.y - base.height, width := w,
       height := base.height }, 10)
  else (base, 0)

def blockVisualRectangle (b : Block) : Rectangle :=
  let (target, tweenTime) := blockVisualTarget b
  match b.tweenRect with
  | some tr =>
      if tweenTime > 0 then
        let t := clamp01 ((b.timer : ℚ) / tweenTime)
        { x := lerp tr.x target.x t
          y := lerp tr.y target.y t
          width := lerp tr.width target.width t
          height := lerp tr.height target.height t }
      else target
  | none => target

/-- blockSetState: a no-op when the state is unchanged; otherwise captures
the current visual rectangle, switches the state and zeroes the timer. -/
def blockSetState (b : Block) (st : BlockState) : Block :=
  if b.state = st then b
  else { b with tweenRect := some (blockVisualRectangle b), state := st, timer := 0 }

/-! ## Collision resolver (blockMoveAndCollide / playerMoveAndCollide) -/

/-- The nudge computed by the collision branch of both move-and-collide
functions: the two horizontal cases and the two vertical cases are mutually
exclusive, the remaining component stays 0. -/
def nudgeFor (mx my : ℚ) (myRect obsRect : Rectangle) : ℚ × ℚ :=
  let nx :=
    if mx < 0 ∧ obsRect.x + obsRect.width > myRect.x then
      -(myRect.x - (obsRect.x + obsRect.width)) + mx
    else if mx > 0 ∧ obsRect.x < myRect.x + myRect.width then
      -(myRect.x + myRect.width - obsRect.x) + mx
    else 0
  let ny :=
    if my < 0 ∧ obsRect.y + obsRect.height > myRect.y then
      -(myRect.y - (obsRect.y + obsRect.height)) + my
    else if my > 0 ∧ obsRect.y < myRect.y + myRect.height then
      -(myRect.y + myRect.height - obsRect.y) + my
    else 0
  (nx, ny)

/-- Scan of the block collection for the first pickable block (optionally
skipping a given id) whose rectangle overlaps the moved rectangle; returns
the nudge against it.  First blocking rectangle wins, in list order. -/
def moveLoop (myRect : Rectangle) (mx my : ℚ) (skip : Option ℕ) :
    List Block → Option (ℚ × ℚ)
  | [] => none
  | o :: rest =>
      if blockIsPickable o &&
         (match skip with
          | some i => decide (o.id ≠ i)
          | none => true) &&
         checkAABB myRect (blockRectangle o) then
        some (nudgeFor mx my myRect (blockRectangle o))
      else moveLoop myRect mx my skip rest

def blockMoveAndCollide (s : GameState) (b : Block) (mx my : ℚ) :
    Bool × Position :=
  let r := blockRectangle b
  let r' := { r with x := r.x + mx, y := r.y + my }
  match moveLoop r' mx my (some b.id) s.blocks with
  | some (nx, ny) => (false, addPosition nx ny b.pos)
  | none => (true, addPosition mx my b.pos)

def playerMoveAndCollide (s : GameState) (p : Player) (mx my : ℚ) :
    Bool × Position :=
  let r := playerRectangle p
  let r' := { r with x := r.x + mx, y := r.y + my }
  if r'.x < 0 then
    (false, addPosition (mx - r'.x) 0 p.pos)
  else if r'.x + r'.width > (GRID_WIDTH : ℚ) * BLOCK_SIZE then
    (false, addPosition (mx + ((GRID_WIDTH : ℚ) * BLOCK_SIZE - (r'.x + r'.width))) 0 p.pos)
  else
    match moveLoop r' mx my none s.blocks with
    | some (nx, ny) => (false, addPosition nx ny p.pos)
    | none => (true, addPosition mx my p.pos)

/-- collideBlock: first block of the collection (any state) overlapping the
given rectangle. -/
def collideBlock (s : GameState) (rect : Rectangle) : Option Block :=
  s.blocks.find? (fun b => checkAABB (blockRectangle b) rect)

/-- onGround: first block overlapping a thin probe strip below the player
(any state: the source does not filter by blockIsPickable here). -/
def onGround (s : GameState) (p : Player) : Option Block :=
  let pickRect : Rectangle :=
    { x := p.pos.x - p.width * 0.5
      y := p.pos.y
      width := p.width
      height := BLOCK_SIZE * 0.25 }
  s.blocks.find? (fun b => checkAABB pickRect (blockRectangle b))

/-! ## Player state entry (playerSetState) -/

def playerSetState (p : Player) (st : PlayerState) : Player :=
  let p :=
    if p.state = .ground ∧ st = .falling then { p with jumpTime := 5 }
    else { p with jumpTime := 0 }
  let p := { p with state := st }
  match st with
  | .jumping => { p with jumpTime := JUMP_TIME }
  | .walljumping => { p with jumpTime := WALLJUMP_TIME }
  | .floating => { p with jumpTime := FLOATING_TIME }
  | _ => p

/-! ## Block settle and per-block update -/

/-- blockSettle: snap a landing block one cell above the first block found
by a 4-pixel probe strip (the probe strip starts at pos.x, i.e. half a block
to the right of the block's own rectangle). -/
def blockSettle (s : GameState) (b : Block) : Block :=
  let pickRect : Rectangle :=
    { x := b.pos.x, y := b.pos.y, width := BLOCK_SIZE, height := 4 }
  match s.blocks.find?
      (fun o => decide (o.id ≠ b.id) && checkAABB pickRect (blockRectangle o)) with
  | some nb =>
      blockSetState
        { b with pos :=
            { x := b.pos.x
              y := nb.pos.y - BLOCK_SIZE
              ix := b.pos.ix
              iy := nb.pos.iy - 1 } } .ground
  | none => blockSetState b .ground

/-- JavaScript Array.prototype.indexOf (−1 when absent). -/
def jsIndexOf : List ℕ → ℕ → ℤ
  | [], _ => -1
  | a :: rest, x =>
      if a = x then 0
      else
        let k := jsIndexOf rest x
        if k < 0 then -1 else k + 1

/-- blockUpdate applied to the block at index i of the collection (JS
mutates the block object in place; the solving case splices it out). -/
def blockUpdateAt (s : GameState) (i : ℕ) : GameState :=
  match s.blocks.get? i with
  | none => s
  | some b0 =>
    let b := { b0 with timer := b0.timer + 1 }
    match b.state with
    | .idle => { s with blocks := s.blocks.set i b }
    | .lifted =>
        let index := jsIndexOf s.player.blocks b.id
        let pos' := setPosition s.player.pos.x
          (s.player.pos.y - s.player.height - ((index : ℚ) * BLOCK_SIZE * 0.5)) b.pos
        { s with blocks := s.blocks.set i { b with pos := pos' } }
    | .thrown =>
        let (ok, pos') := blockMoveAndCollide s b 0 THROW_SPEED
        if ok then { s with blocks := s.blocks.set i { b with pos := pos' } }
        else
          let b1 := { b with pos := pos' }
          let player' :=
            if checkAABB (blockRectangle b1) (playerRectangle s.player) then
              playerSetState s.player .floating
            else s.player
          let b2 := blockSettle s b1
          { s with player := player', blocks := s.blocks.set i b2 }
    | .ground =>
        let (ok, pos') := blockMoveAndCollide s b 0 FALL_SPEED
        if ok then
          { s with blocks := s.blocks.set i (blockSetState { b with pos := pos' } .falling) }
        else { s with blocks := s.blocks.set i { b with pos := pos' } }
    | .falling =>
        let (ok, pos') := blockMoveAndCollide s b 0 FALL_SPEED
        if ok then { s with blocks := s.blocks.set i { b with pos := pos' } }
        else { s with blocks := s.blocks.set i (blockSettle s { b with pos := pos' }) }
    | .solving =>
        if b.timer ≥ SOLVE_TIME then { s with blocks := s.blocks.eraseIdx i }
        else { s with blocks := s.blocks.set i b }

/-- The per-tick block-update loop: iterates by index over the mutable
collection exactly like the JS for-of loop, so an in-place splice makes the
element after the removed one move under the already-consumed index. -/
def blocksLoop : ℕ → GameState → ℕ → GameState
  | 0, s, _ => s
  | fuel + 1, s, i =>
      if i < s.blocks.length then blocksLoop fuel (blockUpdateAt s i) (i + 1)
      else s

def runBlocks (s : GameState) : GameState :=
  blocksLoop s.blocks.length s 0

/-! ## Match solver (checkSolutions) -/

/-- The dense row-major occupancy map (the blockmap array): later blocks in
the collection overwrite earlier ones at the same linear index; only blocks
whose row lies in [minY, maxY] are placed. -/
def buildMap (minY maxY : ℤ) : List Block → ℤ → Option Block
  | [], _ => none
  | b :: rest, idx =>
      match buildMap minY maxY rest idx with
      | some c => some c
      | none =>
          if minY ≤ b.pos.iy ∧ b.pos.iy ≤ maxY ∧
             idx = (b.pos.iy - minY) * (GRID_WIDTH : ℤ) + b.pos.ix then some b
          else none

/-- The greedy streak extension: consume cells while the next one holds a
block matching the streak's first block. -/
def takeStreak (b : Block) : List (Option Block) → List Block
  | [] => []
  | none :: _ => []
  | some nb :: rest =>
      if blocksMatch b nb then nb :: takeStreak b rest else []

/-- A streak is accepted when it has length at least 3 and some member is
resting (ground or already solving). -/
def streakAccepted (l : List Block) : Bool :=
  decide (3 ≤ l.length) &&
  l.any (fun b => decide (b.state = .ground) || decide (b.state = .solving))

/-- The rightward scan from cell (i, j) of the blockmap. -/
def hStreakAt (m : ℤ → Option Block) (j i : ℕ) (b : Block) : List Block :=
  b :: takeStreak b
    ((List.range' (i + 1) (GRID_WIDTH - (i + 1))).map
      (fun k : ℕ => m ((j : ℤ) * (GRID_WIDTH : ℤ) + (k : ℤ))))

/-- The downward scan from cell (i, j) of the blockmap. -/
def vStreakAt (m : ℤ → Option Block) (height j i : ℕ) (b : Block) : List Block :=
  b :: takeStreak b
    ((List.range' (j + 1) (height - (j + 1))).map
      (fun k : ℕ => m ((k : ℤ) * (GRID_WIDTH : ℤ) + (i : ℤ))))

/-- The streaks accepted at one cell (horizontal first, then vertical). -/
def streaksAt (m : ℤ → Option Block) (height j i : ℕ) : List (List Block) :=
  match m ((j : ℤ) * (GRID_WIDTH : ℤ) + (i : ℤ)) with
  | none => []
  | some b =>
      (if streakAccepted (hStreakAt m j i b) then [hStreakAt m j i b] else []) ++
      (if streakAccepted (vStreakAt m height j i b) then [vStreakAt m height j i b] else [])

def scanMinY (s : GameState) : ℤ := s.player.pos.iy - BLOCK_ROW_BUFFER

def scanMaxY (s : GameState) : ℤ := s.bottomRow

def scanHeight (s : GameState) : ℕ := (scanMaxY s - scanMinY s + 1).toNat

/-- The occupancy map of one run of the scan. -/
def scanMap (s : GameState) : ℤ → Option Block :=
  buildMap (scanMinY s) (scanMaxY s) s.blocks

/-- All streaks accepted by one run of the scan (the streaks variable). -/
def scanStreaks (s : GameState) : List (List Block) :=
  (List.range (scanHeight s)).flatMap
    (fun j => (List.range GRID_WIDTH).flatMap
      (fun i => streaksAt (scanMap s) (scanHeight s) j i))

/-- Ids of the union of the accepted streaks (the solvedBlocks set). -/
def solvedIds (s : GameState) : List ℕ :=
  (scanStreaks s).flatMap (fun l => l.map Block.id)

/-- checkSolutions: every block of the solved set transitions to solving. -/
def checkSolutions (s : GameState) : GameState :=
  { s with blocks :=
      s.blocks.map (fun b =>
        if b.id ∈ solvedIds s then blockSetState b .solving else b) }

/-! ## Player state machine (playerUpdate) -/

def jsSign (q : ℚ) : ℚ :=
  if q > 0 then 1 else if q < 0 then -1 else 0

def movementXOf (p : Player) (c : Controller) : ℚ :=
  (if c.left > 0 then -p.speed else 0) + (if c.right > 0 then p.speed else 0)

def optBlockStateIs (o : Option Block) (st : BlockState) : Bool :=
  match o with
  | some b => decide (b.state = st)
  | none => false

/-- The throw branch shared by the ground, jumping and falling cases: shift
the oldest carried block, re-center it on the player's column, set it to
thrown and force the player into jumping. -/
def tryThrow (s : GameState) (c : Controller) : Option GameState :=
  if c.b = 1 then
    match s.player.blocks with
    | [] => none
    | tid :: rest =>
        let newX : ℚ := ((⌊s.player.pos.x / BLOCK_SIZE⌋ : ℚ) + 0.5) * BLOCK_SIZE
        let blocks' := s.blocks.map (fun b =>
          if b.id = tid then
            let b' := { b with pos := setPosition newX s.player.pos.y b.pos }
            blockSetState b' .thrown
          else b)
        some { s with blocks := blocks',
                      player := playerSetState { s.player with blocks := rest } .jumping }
  else none

def updatePGround (s : GameState) (c : Controller) : GameState :=
  let player := s.player
  let inBlock := collideBlock s (playerRectangle player)
  if optBlockStateIs inBlock .ground then
    { s with player := playerSetState player .floating }
  else
    let movementX := movementXOf player c
    match tryThrow s c with
    | some s' => s'
    | none =>
        let (ok, pos1) := playerMoveAndCollide s player 0 FALL_SPEED
        let p1 := { player with pos := pos1 }
        if ok then { s with player := playerSetState p1 .falling }
        else
          let groundBlock := onGround s p1
          let (s2, p2) :=
            match groundBlock with
            | some g =>
                if c.a = 1 ∧ p1.blocks.length < MAX_BLOCKS then
                  ({ s with blocks := s.blocks.map (fun b =>
                      if b.id = g.id then blockSetState b .lifted else b) },
                   { p1 with blocks := p1.blocks ++ [g.id] })
                else (s, p1)
            | none => (s, p1)
          let (_, pos2) := playerMoveAndCollide s2 p2 movementX 0
          let p3 := { p2 with pos := pos2 }
          let p4 := if c.up = 1 then playerSetState p3 .jumping else p3
          let p5 := if groundBlock = none then playerSetState p4 .falling else p4
          { s2 with player := p5 }

def updatePJumping (s : GameState) (c : Controller) : GameState :=
  let player := s.player
  let movementX := movementXOf player c
  let inBlock := collideBlock s (playerRectangle player)
  if optBlockStateIs inBlock .falling then
    { s with player := playerSetState player .floating }
  else
    match tryThrow s c with
    | some s' => s'
    | none =>
        let (_, pos1) := playerMoveAndCollide s player movementX 0
        let p1 := { player with pos := pos1 }
        let (ok2, pos2) :=
          playerMoveAndCollide s p1 0 (-5 * ((p1.jumpTime : ℚ) / 30))
        let p2 := { p1 with pos := pos2 }
        let p3 := if ok2 then p2 else playerSetState p2 .falling
        let p4 :=
          if p3.jumpTime > 0 then { p3 with jumpTime := p3.jumpTime - 1 }
          else playerSetState p3 .falling
        { s with player := p4 }

def updatePFalling (s : GameState) (c : Controller) : GameState :=
  let player := s.player
  let inBlock := collideBlock s (playerRectangle player)
  if optBlockStateIs inBlock .falling then
    { s with player := playerSetState player .floating }
  else
    let movementX := movementXOf player c
    match tryThrow s c with
    | some s' => s'
    | none =>
        if player.jumpTime > 0 ∧ c.up = 1 then
          { s with player := playerSetState player .jumping }
        else
          let p1 := { player with jumpTime := player.jumpTime - 1 }
          let fallMultiplier : ℚ := if c.down > 0 then 2 else 1
          let (ok, pos1) := playerMoveAndCollide s p1 0 (FALL_SPEED * fallMultiplier)
          let p2 := { p1 with pos := pos1 }
          if ok = false then { s with player := playerSetState p2 .ground }
          else
            let (ok2, pos2) := playerMoveAndCollide s p2 movementX 0
            let p3 := { p2 with pos := pos2 }
            if ok2 = false then
              { s with player := playerSetState { p3 with wallriding := some movementX } .wallride }
            else { s with player := p3 }

def updatePWallride (s : GameState) (c : Controller) : GameState :=
  let player := s.player
  let movementX := movementXOf player c
  let wr := player.wallriding.getD 0
  let p1 :=
    if movementX ≠ 0 ∧ jsSign movementX = jsSign wr then { player with jumpTime := 10 }
    else { player with jumpTime := player.jumpTime - 1 }
  if p1.jumpTime ≤ 0 then { s with player := playerSetState p1 .falling }
  else if c.up = 1 then
    { s with player := playerSetState { p1 with wallriding := some (wr * (-1)) } .walljumping }
  else
    let (ok, pos1) := playerMoveAndCollide s p1 0 1
    let p2 := { p1 with pos := pos1 }
    if ok = false then { s with player := playerSetState p2 .ground }
    else
      let (ok2, pos2) := playerMoveAndCollide s p2 (p2.wallriding.getD 0) 0
      let p3 := { p2 with pos := pos2 }
      if ok2 then { s with player := playerSetState p3 .falling }
      else { s with player := p3 }

def updatePWalljumping (s : GameState) (c : Controller) : GameState :=
  let player := s.player
  let wr := player.wallriding.getD 0
  let (ok, pos1) := playerMoveAndCollide s player wr 0
  let p1 := { player with pos := pos1 }
  if ok = false then
    { s with player := playerSetState { p1 with wallriding := some (-wr) } .wallride }
  else
    let (ok2, pos2) := playerMoveAndCollide s p1 0 (-4 * ((p1.jumpTime : ℚ) / 30))
    let p2 := { p1 with pos := pos2 }
    if ok2 = false then { s with player := playerSetState p2 .falling }
    else
      let p3 :=
        if p2.jumpTime > 0 then { p2 with jumpTime := p2.jumpTime - 1 }
        else playerSetState p2 .falling
      { s with player := p3 }

def updatePFloating (s : GameState) (_c : Controller) : GameState :=
  let player := s.player
  let inBlock := collideBlock s (playerRectangle player)
  match inBlock with
  | none => { s with player := playerSetState player .jumping }
  | some _ => { s with player := { player with pos := addPosition 0 (-FLOAT_SPEED) player.pos } }

def playerUpdate (s : GameState) (c : Controller) : GameState :=
  match s.player.state with
  | .ground => updatePGround s c
  | .jumping => updatePJumping s c
  | .falling => updatePFalling s c
  | .wallride => updatePWallride s c
  | .walljumping => updatePWalljumping s c
  | .floating => updatePFloating s c

/-! ## Row spawner (createBlock / createBlockRow / spawn loop) -/

def createBlock (s : GameState) (ix iy : ℤ) (color : BlockColor) : GameState :=
  let b : Block :=
    { id := s.nextBlockId
      pos := { x := ((ix : ℚ) + 0.5) * BLOCK_SIZE, y := (iy : ℚ) * BLOCK_SIZE,
               ix := ix, iy := iy }
      color := color
      state := .idle
      timer := 0
      star := false
      tweenRect := none }
  { s with nextBlockId := s.nextBlockId + 1, blocks := s.blocks ++ [b] }

/-- randomBlockColor: index floor(r * 3) into the palette, so yellow (the
bonus color) is never produced for r in [0, 1). -/
def randomBlockColor (r : ℚ) : BlockColor :=
  match (⌊r * 3⌋).toNat with
  | 0 => .red
  | 1 => .green
  | _ => .blue

/-- One random draw: the oracle value at the state's consumption index. -/
def drawRand (rand : ℕ → ℚ) (s : GameState) : ℚ × GameState :=
  (rand s.seed, { s with seed := s.seed + 1 })

/-- The per-column body of createBlockRow for columns i, i+1, ..., 7. -/
def spawnCols (rand : ℕ → ℚ) (row : ℤ) : GameState → ℕ → GameState
  | s, 0 => s
  | s, n + 1 =>
      let i := GRID_WIDTH - (n + 1)
      let (r, s1) := drawRand rand s
      let s2 :=
        if r < 0.7 then
          let (rc, s1') := drawRand rand s1
          createBlock s1' (i : ℤ) row (randomBlockColor rc)
        else s1
      spawnCols rand row s2 n

/-- JavaScript Array.prototype.at with a negated non-negative index. -/
def jsAtNeg (l : List Block) (k : ℕ) : Option ℕ :=
  if k = 0 then (l.get? 0).map Block.id
  else if k ≤ l.length then (l.get? (l.length - k)).map Block.id
  else none

def createBlockRow (rand : ℕ → ℚ) (s : GameState) : GameState :=
  let row := s.bottomRow + 1
  let s1 := { s with bottomRow := row }
  let s2 := spawnCols rand row s1 GRID_WIDTH
  if Int.tmod row 6 = 5 then
    let (r, s3) := drawRand rand s2
    let k := (⌊r * (GRID_WIDTH : ℚ) * 2⌋).toNat
    match jsAtNeg s3.blocks k with
    | some tid =>
        { s3 with blocks := s3.blocks.map (fun b =>
            if b.id = tid then { b with star := true } else b) }
    | none => s3
  else s2

def spawnLoop (rand : ℕ → ℚ) : ℕ → GameState → GameState
  | 0, s => s
  | fuel + 1, s =>
      if s.player.pos.iy + BLOCK_ROW_BUFFER > s.bottomRow then
        spawnLoop rand fuel (createBlockRow rand s)
      else s

def runSpawn (rand : ℕ → ℚ) (s : GameState) : GameState :=
  spawnLoop rand (s.player.pos.iy + BLOCK_ROW_BUFFER - s.bottomRow).toNat s

/-! ## Simulation clock: one playing-mode tick (updatePlaying) -/

/-- Stable insertion sort by descending row index, modelling the stable
Array.prototype.sort with comparator b.pos.iy − a.pos.iy. -/
def insertBlockDesc (b : Block) : List Block → List Block
  | [] => [b]
  | c :: rest =>
      if b.pos.iy < c.pos.iy then c :: insertBlockDesc b rest
      else b :: c :: rest

def sortBlocks : List Block → List Block
  | [] => []
  | b :: rest => insertBlockDesc b (sortBlocks rest)

def updatePlaying (rand : ℕ → ℚ) (s : GameState) (c : Controller) : GameState :=
  let s1 := playerUpdate s c
  let s2 := runBlocks s1
  let s3 := checkSolutions s2
  let s4 := { s3 with cameraPos := setPosition s3.cameraPos.x s3.player.pos.y s3.cameraPos }
  let s5 := runSpawn rand s4
  { s5 with blocks := sortBlocks s5.blocks }

/-! ## Basic lemmas about block state changes -/

theorem blockSetState_self (b : Block) (st : BlockState) (h : b.state = st) :
    blockSetState b st = b := by
  simp [blockSetState, h]

theorem blockSetState_state (b : Block) (st : BlockState) :
    (blockSetState b st).state = st := by
  unfold blockSetState
  split
  · assumption
  · rfl

theorem blockSetState_id (b : Block) (st : BlockState) :
    (blockSetState b st).id = b.id := by
  unfold blockSetState
  split <;> rfl

/-! ## C3: position indices are recomputed by floor division -/

/-- C3: for every position record and all rational inputs, immediately after
setPosition(x, y, pos) or addPosition(dx, dy, pos) returns, ix equals
floor(x / 64) and iy equals floor(y / 64) exactly (BLOCK_SIZE = 64). -/
theorem c3_position_indices (x y dx dy : ℚ) (pos : Position) :
    ((setPosition x y pos).ix = ⌊(setPosition x y pos).x / 64⌋ ∧
     (setPosition x y pos).iy = ⌊(setPosition x y pos).y / 64⌋) ∧
    ((addPosition dx dy pos).ix = ⌊(addPosition dx dy pos).x / 64⌋ ∧
     (addPosition dx dy pos).iy = ⌊(addPosition dx dy pos).y / 64⌋) := by
  refine ⟨⟨?_, ?_⟩, ⟨?_, ?_⟩⟩ <;> simp [setPosition, addPosition, BLOCK_SIZE]

/-! ## C6: setting an already-solving block to solving is idempotent -/

/-- C6: blockSetState on an already-solving block changes nothing (state,
timer and cached tween rectangle included), and blockUpdate removes a
solving block exactly when its incremented timer reaches SOLVE_TIME = 30,
otherwise only bumping the timer. -/
theorem c6_solving_idempotent :
    (∀ b : Block, b.state = .solving → blockSetState b .solving = b) ∧
    (∀ (s : GameState) (i : ℕ) (b : Block),
      s.blocks.get? i = some b → b.state = .solving →
      (b.timer + 1 ≥ SOLVE_TIME →
        (blockUpdateAt s i).blocks = s.blocks.eraseIdx i) ∧
      (b.timer + 1 < SOLVE_TIME →
        (blockUpdateAt s i).blocks = s.blocks.set i { b with timer := b.timer + 1 })) := by
  constructor
  · intro b h
    exact blockSetState_self b .solving h
  · intro s i b hget hst
    obtain ⟨bid, bpos, bcol, bstate, btimer, bstar, btw⟩ := b
    simp only at hst
    subst hst
    constructor
    · intro ht
      simp only [blockUpdateAt, hget]
      rw [if_pos]
      exact ht
    · intro ht
      have ht2 : btimer + 1 < 30 := ht
      simp only [blockUpdateAt, hget]
      have hcond :
          ¬ ((⟨bid, bpos, bcol, .solving, btimer + 1, bstar, btw⟩ : Block).timer ≥ SOLVE_TIME) := by
        show ¬ (btimer + 1 ≥ 30)
        omega
      rw [if_neg hcond]

/-- Witness for C6 at a concrete solving block and state. -/
def c6Block : Block :=
  { id := 7
    pos := { x := 96, y := 128, ix := 1, iy := 2 }
    color := .red
    state := .solving
    timer := 5
    star := false
    tweenRect := none }

def c6State : GameState :=
  { time := 0, seed := 0, mode := .playing
    player :=
      { pos := { x := 96, y := 0, ix := 1, iy := 0 }
        width := 32, height := 70.4, jumpTime := 0, speed := 2
        state := .falling, wallriding := none, blocks := [] }
    cameraPos := { x := 0, y := 0, ix := 0, iy := 0 }
    blocks := [c6Block]
    nextBlockId := 8, bottomRow := 5, finishLineRow := 32, score := 0 }

/-- Witness: C6 applied at a concrete solving block with timer 5. -/
theorem c6_solving_idempotent_witness :
    blockSetState c6Block .solving = c6Block ∧
    (blockUpdateAt c6State 0).blocks =
      c6State.blocks.set 0 { c6Block with timer := 6 } := by
  constructor
  · exact c6_solving_idempotent.1 c6Block (by with_unfolding_all decide)
  · exact ((c6_solving_idempotent.2 c6State 0 c6Block (by with_unfolding_all decide)
      (by with_unfolding_all decide)).2 (by with_unfolding_all decide))

/-! ## C4: a solving block and the match re-scan -/

/-- Counterexample to C4 as stated: with a solving red block at column 2,
a ground red block at column 3 and an idle red block at column 4 of row 0,
the scan detects a streak having the solving block as a member. -/
def c4Player : Player :=
  { pos := { x := 96, y := 0, ix := 1, iy := 0 }
    width := 32, height := 70.4, jumpTime := 0, speed := 2
    state := .falling, wallriding := none, blocks := [] }

def mkCexBlock (i : ℕ) (x y : ℚ) (c : BlockColor) (st : BlockState) : Block :=
  { id := i
    pos := { x := x, y := y, ix := ⌊x / 64⌋, iy := ⌊y / 64⌋ }
    color := c
    state := st
    timer := 0
    star := false
    tweenRect := none }

def c4State : GameState :=
  { time := 0, seed := 0, mode := .playing, player := c4Player
    cameraPos := { x := 0, y := 0, ix := 0, iy := 0 }
    blocks := [mkCexBlock 1 160 0 .red .solving, mkCexBlock 2 224 0 .red .ground,
               mkCexBlock 3 288 0 .red .idle]
    nextBlockId := 4, bottomRow := 0, finishLineRow := 32, score := 0 }

/-- C4 counterexample: a block that is in state solving at the start of the
scan is a member of a newly detected streak (blockIsSolvable includes
solving, and the acceptance test even counts solving as resting). -/
theorem c4_solving_in_streak_cex :
    ∃ l ∈ scanStreaks c4State, ∃ a ∈ l, a.id = 1 ∧ a.state = .solving := by
  with_unfolding_all decide

/-- C4 amended: a block already in state solving may be a member of a newly
detected streak, but the scan leaves such a block entirely unchanged
(state, timer and tween rectangle included). -/
theorem c4_solving_unchanged (s : GameState) (i : ℕ) (b : Block)
    (hget : s.blocks.get? i = some b) (hst : b.state = .solving) :
    (checkSolutions s).blocks.get? i = some b := by
  simp only [checkSolutions, List.get?_map, hget, Option.map_some']
  split
  · exact congrArg some (blockSetState_self b .solving hst)
  · rfl

/-- Witness: C4's amended theorem applied at the concrete solving block of
the counterexample state. -/
theorem c4_solving_unchanged_witness :
    (checkSolutions c4State).blocks.get? 0 = some (mkCexBlock 1 160 0 .red .solving) :=
  c4_solving_unchanged c4State 0 (mkCexBlock 1 160 0 .red .solving)
    (by with_unfolding_all decide) (by with_unfolding_all decide)

/-! ## C9: world-boundary clamping in playerMoveAndCollide -/

theorem pmac_left_wall (s : GameState) (p : Player) (mx my : ℚ)
    (h : (playerRectangle p).x + mx < 0) :
    playerMoveAndCollide s p mx my =
      (false, addPosition (mx - ((playerRectangle p).x + mx)) 0 p.pos) := by
  simp only [playerMoveAndCollide]
  rw [if_pos h]

theorem pmac_right_wall (s : GameState) (p : Player) (mx my : ℚ)
    (h1 : ¬ ((playerRectangle p).x + mx < 0))
    (h2 : (playerRectangle p).x + mx + (playerRectangle p).width >
      (GRID_WIDTH : ℚ) * BLOCK_SIZE) :
    playerMoveAndCollide s p mx my =
      (false, addPosition
        (mx + ((GRID_WIDTH : ℚ) * BLOCK_SIZE -
          ((playerRectangle p).x + mx + (playerRectangle p).width))) 0 p.pos) := by
  simp only [playerMoveAndCollide]
  rw [if_neg h1, if_pos h2]

/-- C9: a call of playerMoveAndCollide whose moved rectangle would cross the
left wall (x < 0) or the right wall (x + width > 8 * 64) returns false,
gives a result independent of the block collection (the boundary check runs
before the block loop, and the function is total, so it never throws), and
leaves the player's rectangle flush against that wall. -/
theorem c9_wall_clamp (s : GameState) (p : Player) (mx my : ℚ) :
    ((playerRectangle p).x + mx < 0 →
      (playerMoveAndCollide s p mx my).1 = false ∧
      (playerRectangle { p with pos := (playerMoveAndCollide s p mx my).2 }).x = 0 ∧
      (∀ bl : List Block,
        playerMoveAndCollide { s with blocks := bl } p mx my =
          playerMoveAndCollide s p mx my)) ∧
    (¬ ((playerRectangle p).x + mx < 0) →
      (playerRectangle p).x + mx + p.width > (GRID_WIDTH : ℚ) * BLOCK_SIZE →
      (playerMoveAndCollide s p mx my).1 = false ∧
      (playerRectangle { p with pos := (playerMoveAndCollide s p mx my).2 }).x + p.width =
        (GRID_WIDTH : ℚ) * BLOCK_SIZE ∧
      (∀ bl : List Block,
        playerMoveAndCollide { s with blocks := bl } p mx my =
          playerMoveAndCollide s p mx my)) := by
  constructor
  · intro h
    refine ⟨?_, ?_, ?_⟩
    · rw [pmac_left_wall s p mx my h]
    · rw [pmac_left_wall s p mx my h]
      simp only [playerRectangle, addPosition]
      ring
    · intro bl
      rw [pmac_left_wall _ p mx my h, pmac_left_wall s p mx my h]
  · intro h1 h2
    have h2' : (playerRectangle p).x + mx + (playerRectangle p).width >
        (GRID_WIDTH : ℚ) * BLOCK_SIZE := by
      simpa [playerRectangle] using h2
    refine ⟨?_, ?_, ?_⟩
    · rw [pmac_right_wall s p mx my h1 h2']
    · rw [pmac_right_wall s p mx my h1 h2']
      simp only [playerRectangle, addPosition]
      ring
    · intro bl
      rw [pmac_right_wall _ p mx my h1 h2', pmac_right_wall s p mx my h1 h2']

def c9Player : Player :=
  { pos := { x := 10, y := 0, ix := 0, iy := 0 }
    width := 32, height := 70.4, jumpTime := 0, speed := 2
    state := .falling, wallriding := none, blocks := [] }

def c9State : GameState :=
  { time := 0, seed := 0, mode := .playing, player := c9Player
    cameraPos := { x := 0, y := 0, ix := 0, iy := 0 }
    blocks := [mkCexBlock 1 96 128 .red .ground]
    nextBlockId := 2, bottomRow := 5, finishLineRow := 32, score := 0 }

/-- Witness: C9 applied at a concrete leftward move crossing the left wall
and a concrete rightward move crossing the right wall. -/
theorem c9_wall_clamp_witness :
    ((playerMoveAndCollide c9State c9Player (-100) 0).1 = false ∧
      (playerRectangle { c9Player with pos := (playerMoveAndCollide c9State c9Player (-100) 0).2 }).x = 0) ∧
    ((playerMoveAndCollide c9State c9Player 600 0).1 = false ∧
      (playerRectangle { c9Player with pos := (playerMoveAndCollide c9State c9Player 600 0).2 }).x +
        c9Player.width = (GRID_WIDTH : ℚ) * BLOCK_SIZE) := by
  constructor
  · have h := (c9_wall_clamp c9State c9Player (-100) 0).1 (by with_unfolding_all decide)
    exact ⟨h.1, h.2.1⟩
  · have h := (c9_wall_clamp c9State c9Player 600 0).2
      (by with_unfolding_all decide) (by with_unfolding_all decide)
    exact ⟨h.1, h.2.1⟩

/-! ## C10: the in-place splice skips the next block's update -/

theorem get?_set_ne {α : Type} : ∀ (l : List α) (a : α) (i j : ℕ), i ≠ j →
    (l.set i a).get? j = l.get? j
  | [], _, _, _, _ => rfl
  | _ :: _, _, 0, 0, h => absurd rfl h
  | _ :: _, _, 0, _ + 1, _ => rfl
  | _ :: _, _, _ + 1, 0, _ => rfl
  | _ :: rest, a, i + 1, j + 1, h =>
      get?_set_ne rest a i j (fun hij => h (congrArg Nat.succ hij))

theorem get?_eraseIdx_lt {α : Type} : ∀ (l : List α) (i j : ℕ), j < i →
    (l.eraseIdx i).get? j = l.get? j
  | [], _, _, _ => rfl
  | _ :: _, 0, j, h => absurd h (Nat.not_lt_zero j)
  | _ :: _, _ + 1, 0, _ => rfl
  | _ :: rest, i + 1, j + 1, h =>
      get?_eraseIdx_lt rest i j (Nat.lt_of_succ_lt_succ h)

theorem blockUpdateAt_get?_lt (s : GameState) (i j : ℕ) (h : j < i) :
    (blockUpdateAt s i).blocks.get? j = s.blocks.get? j := by
  have hne : i ≠ j := Nat.ne_of_gt h
  unfold blockUpdateAt
  cases hg : s.blocks.get? i with
  | none => rfl
  | some b =>
      simp only
      split <;> (try split) <;> (try split) <;>
        first
          | exact get?_set_ne _ _ _ _ hne
          | exact get?_eraseIdx_lt _ _ _ h
          | rfl

theorem blocksLoop_get?_lt : ∀ (fuel : ℕ) (s : GameState) (i j : ℕ), j < i →
    (blocksLoop fuel s i).blocks.get? j = s.blocks.get? j := by
  intro fuel
  induction fuel with
  | zero => intro s i j _; rfl
  | succ n ih =>
      intro s i j h
      unfold blocksLoop
      split
      · rw [ih (blockUpdateAt s i) (i + 1) j (Nat.lt_succ_of_lt h)]
        exact blockUpdateAt_get?_lt s i j h
      · rfl

/-- C10: in the per-tick block-update loop, when the block at the head of
the collection is a solving block whose timer expires (so it is spliced out
during iteration), the block that occupied the next index ends the loop
completely untouched: it never receives a blockUpdate call, so not even its
timer is incremented. -/
theorem c10_splice_skip (s : GameState) (A B : Block) (rest : List Block)
    (hblocks : s.blocks = A :: B :: rest) (hst : A.state = .solving)
    (ht : A.timer + 1 ≥ SOLVE_TIME) :
    (runBlocks s).blocks.get? 0 = some B := by
  have hlen : s.blocks.length = rest.length + 2 := by rw [hblocks]; simp
  have hget0 : s.blocks.get? 0 = some A := by rw [hblocks]; rfl
  have h1 : blockUpdateAt s 0 = { s with blocks := B :: rest } := by
    obtain ⟨bid, bpos, bcol, bstate, btimer, bstar, btw⟩ := A
    simp only at hst
    subst hst
    simp only [blockUpdateAt, hget0]
    rw [if_pos (show (btimer + 1 ≥ SOLVE_TIME) from ht)]
    rw [hblocks]
    rfl
  unfold runBlocks
  rw [hlen]
  show (blocksLoop (rest.length + 1 + 1) s 0).blocks.get? 0 = some B
  unfold blocksLoop
  rw [if_pos (by omega)]
  rw [h1]
  rw [blocksLoop_get?_lt (rest.length + 1) _ 1 0 Nat.zero_lt_one]
  rfl

def c10A : Block :=
  { id := 1
    pos := { x := 96, y := 128, ix := 1, iy := 2 }
    color := .red
    state := .solving
    timer := 29
    star := false
    tweenRect := none }

def c10B : Block :=
  { id := 2
    pos := { x := 160, y := 128, ix := 2, iy := 2 }
    color := .blue
    state := .idle
    timer := 3
    star := false
    tweenRect := none }

def c10State : GameState :=
  { time := 0, seed := 0, mode := .playing, player := c4Player
    cameraPos := { x := 0, y := 0, ix := 0, iy := 0 }
    blocks := [c10A, c10B]
    nextBlockId := 3, bottomRow := 5, finishLineRow := 32, score := 0 }

/-- Witness: C10 applied at a two-block collection whose head is a solving
block with timer 29; the second block survives the loop unchanged (its
timer is still 3). -/
theorem c10_splice_skip_witness :
    (runBlocks c10State).blocks.get? 0 = some c10B :=
  c10_splice_skip c10State c10A c10B []
    (by with_unfolding_all decide) (by with_unfolding_all decide) (by with_unfolding_all decide)

/-! ## C5: the carried-block list never exceeds MAX_BLOCKS -/

theorem playerSetState_blocks (p : Player) (st : PlayerState) :
    (playerSetState p st).blocks = p.blocks := by
  unfold playerSetState
  cases st <;> split <;> rfl

theorem tryThrow_blocks_le (s : GameState) (c : Controller) (s' : GameState)
    (h : tryThrow s c = some s') :
    s'.player.blocks.length + 1 = s.player.blocks.length := by
  unfold tryThrow at h
  split at h
  · cases hb : s.player.blocks with
    | nil => rw [hb] at h; exact absurd h (by simp)
    | cons tid rest =>
        rw [hb] at h
        simp only [Option.some.injEq] at h
        subst h
        simp [playerSetState_blocks, hb]
  · exact absurd h (by simp)

theorem tryThrow_none_of_b (s : GameState) (c : Controller) (h : c.b ≠ 1) :
    tryThrow s c = none := by
  unfold tryThrow
  rw [if_neg h]

theorem updatePGround_blocks_le (s : GameState) (c : Controller)
    (h : s.player.blocks.length ≤ MAX_BLOCKS) :
    (updatePGround s c).player.blocks.length ≤ MAX_BLOCKS := by
  unfold updatePGround
  cases hthrow : tryThrow s c with
  | some s' =>
      simp only [hthrow]
      have := tryThrow_blocks_le s c s' hthrow
      split
      · simpa [playerSetState_blocks] using h
      · omega
  | none =>
      rcases hp : playerMoveAndCollide s s.player 0 FALL_SPEED with ⟨ok, pos1⟩
      cases hg : onGround s { s.player with pos := pos1 } with
      | none =>
          cases ok <;>
            simp only [hthrow, hp, hg, MAX_BLOCKS] at * <;>
            split_ifs <;>
            simp_all [playerSetState_blocks]
      | some g =>
          cases ok <;>
            simp only [hthrow, hp, hg, MAX_BLOCKS] at * <;>
            split_ifs <;>
            simp_all [playerSetState_blocks] <;>
            omega

theorem updatePJumping_blocks_le (s : GameState) (c : Controller)
    (h : s.player.blocks.length ≤ MAX_BLOCKS) :
    (updatePJumping s c).player.blocks.length ≤ MAX_BLOCKS := by
  unfold updatePJumping
  cases hthrow : tryThrow s c with
  | some s' =>
      simp only [hthrow]
      have := tryThrow_blocks_le s c s' hthrow
      split
      · simpa [playerSetState_blocks] using h
      · omega
  | none =>
      rcases hp : playerMoveAndCollide s s.player (movementXOf s.player c) 0 with ⟨ok, pos1⟩
      rcases hp2 : playerMoveAndCollide s { s.player with pos := pos1 } 0
          (-5 * ((s.player.jumpTime : ℚ) / 30)) with ⟨ok2, pos2⟩
      cases ok2 <;>
        simp only [hthrow, hp, hp2, MAX_BLOCKS] at * <;>
        split_ifs <;>
        simp_all [playerSetState_blocks]

theorem updatePFalling_blocks_le (s : GameState) (c : Controller)
    (h : s.player.blocks.length ≤ MAX_BLOCKS) :
    (updatePFalling s c).player.blocks.length ≤ MAX_BLOCKS := by
  unfold updatePFalling
  cases hthrow : tryThrow s c with
  | some s' =>
      simp only [hthrow]
      have := tryThrow_blocks_le s c s' hthrow
      split
      · simpa [playerSetState_blocks] using h
      · omega
  | none =>
      rcases hp : playerMoveAndCollide s { s.player with jumpTime := s.player.jumpTime - 1 } 0
          (FALL_SPEED * (if c.down > 0 then 2 else 1)) with ⟨ok, pos1⟩
      rcases hp2 : playerMoveAndCollide s
          { s.player with jumpTime := s.player.jumpTime - 1, pos := pos1 }
          (movementXOf s.player c) 0 with ⟨ok2, pos2⟩
      cases ok <;> cases ok2 <;>
        simp only [hthrow, hp, hp2, MAX_BLOCKS] at * <;>
        split_ifs <;>
        simp_all [playerSetState_blocks]

theorem updatePWallride_blocks_le (s : GameState) (c : Controller)
    (h : s.player.blocks.length ≤ MAX_BLOCKS) :
    (updatePWallride s c).player.blocks.length ≤ MAX_BLOCKS := by
  unfold updatePWallride
  rcases hsgn : (if movementXOf s.player c ≠ 0 ∧
      jsSign (movementXOf s.player c) = jsSign (s.player.wallriding.getD 0) then
        { s.player with jumpTime := 10 }
      else { s.player with jumpTime := s.player.jumpTime - 1 }) with p1
  rcases hp : playerMoveAndCollide s p1 0 1 with ⟨ok, pos1⟩
  rcases hp2 : playerMoveAndCollide s { p1 with pos := pos1 } (p1.wallriding.getD 0) 0
      with ⟨ok2, pos2⟩
  have hp1blocks : p1.blocks = s.player.blocks := by
    rw [← hsgn]
    split <;> rfl
  cases ok <;> cases ok2 <;>
    simp only [← hsgn, hp, hp2, MAX_BLOCKS] at * <;>
    split_ifs <;>
    simp_all [playerSetState_blocks]

theorem updatePWalljumping_blocks_le (s : GameState) (c : Controller)
    (h : s.player.blocks.length ≤ MAX_BLOCKS) :
    (updatePWalljumping s c).player.blocks.length ≤ MAX_BLOCKS := by
  unfold updatePWalljumping
  rcases hp : playerMoveAndCollide s s.player (s.player.wallriding.getD 0) 0 with ⟨ok, pos1⟩
  rcases hp2 : playerMoveAndCollide s { s.player with pos := pos1 } 0
      (-4 * ((s.player.jumpTime : ℚ) / 30)) with ⟨ok2, pos2⟩
  cases ok <;> cases ok2 <;>
    simp only [hp, hp2, MAX_BLOCKS] at * <;>
    split_ifs <;>
    simp_all [playerSetState_blocks]

theorem updatePFloating_blocks_le (s : GameState) (c : Controller)
    (h : s.player.blocks.length ≤ MAX_BLOCKS) :
    (updatePFloating s c).player.blocks.length ≤ MAX_BLOCKS := by
  unfold updatePFloating
  cases hib : collideBlock s (playerRectangle s.player) <;>
    simp only [hib] <;>
    simp_all [playerSetState_blocks]

theorem playerUpdate_blocks_le (s : GameState) (c : Controller)
    (h : s.player.blocks.length ≤ MAX_BLOCKS) :
    (playerUpdate s c).player.blocks.length ≤ MAX_BLOCKS := by
  unfold playerUpdate
  split
  · exact updatePGround_blocks_le s c h
  · exact updatePJumping_blocks_le s c h
  · exact updatePFalling_blocks_le s c h
  · exact updatePWallride_blocks_le s c h
  · exact updatePWalljumping_blocks_le s c h
  · exact updatePFloating_blocks_le s c h

theorem blockUpdateAt_player_blocks (s : GameState) (i : ℕ) :
    (blockUpdateAt s i).player.blocks = s.player.blocks := by
  unfold blockUpdateAt
  cases hg : s.blocks.get? i with
  | none => rfl
  | some b =>
      simp only
      split <;> (try split) <;> (try split) <;>
        first
          | rfl
          | exact playerSetState_blocks _ _

theorem blocksLoop_player_blocks : ∀ (fuel : ℕ) (s : GameState) (i : ℕ),
    (blocksLoop fuel s i).player.blocks = s.player.blocks := by
  intro fuel
  induction fuel with
  | zero => intro s i; rfl
  | succ n ih =>
      intro s i
      unfold blocksLoop
      split
      · rw [ih (blockUpdateAt s i) (i + 1), blockUpdateAt_player_blocks]
      · rfl

theorem spawnCols_player (rand : ℕ → ℚ) (row : ℤ) : ∀ (n : ℕ) (s : GameState),
    (spawnCols rand row s n).player = s.player := by
  intro n
  induction n with
  | zero => intro s; rfl
  | succ m ih =>
      intro s
      unfold spawnCols
      rw [ih]
      split <;> rfl

theorem createBlockRow_player (rand : ℕ → ℚ) (s : GameState) :
    (createBlockRow rand s).player = s.player := by
  simp only [createBlockRow, drawRand]
  split
  · split <;> simp [spawnCols_player]
  · simp [spawnCols_player]

theorem spawnLoop_player : ∀ (rand : ℕ → ℚ) (fuel : ℕ) (s : GameState),
    (spawnLoop rand fuel s).player = s.player := by
  intro rand fuel
  induction fuel with
  | zero => intro s; rfl
  | succ n ih =>
      intro s
      unfold spawnLoop
      split
      · rw [ih (createBlockRow rand s), createBlockRow_player]
      · rfl

/-- C5: one playing-mode tick never grows the carried-block list past
MAX_BLOCKS = 4; and in the lift scenario (player grounded, the lift action
firing with the carry list already at capacity, no throw queued, a block
underfoot) the player phase keeps the carry list at length 4 and changes no
block of the collection in any way, so in particular the underfoot block's
state is unchanged. -/
theorem c5_carry_capacity :
    (∀ (rand : ℕ → ℚ) (s : GameState) (c : Controller),
      s.player.blocks.length ≤ MAX_BLOCKS →
      (updatePlaying rand s c).player.blocks.length ≤ MAX_BLOCKS) ∧
    (∀ (s : GameState) (c : Controller),
      s.player.state = .ground → c.b ≠ 1 → c.a = 1 →
      s.player.blocks.length = MAX_BLOCKS →
      onGround s s.player ≠ none →
      (playerUpdate s c).blocks = s.blocks ∧
      (playerUpdate s c).player.blocks.length = MAX_BLOCKS) := by
  constructor
  · intro rand s c h
    have hp : (updatePlaying rand s c).player.blocks = (playerUpdate s c).player.blocks := by
      unfold updatePlaying runSpawn runBlocks checkSolutions
      simp only
      rw [spawnLoop_player]
      simp only
      rw [blocksLoop_player_blocks]
    rw [hp]
    exact playerUpdate_blocks_le s c h
  · intro s c hgr hb _ha h4 _hog
    have hpu : playerUpdate s c = updatePGround s c := by
      unfold playerUpdate
      rw [hgr]
    rw [hpu]
    unfold updatePGround
    rw [tryThrow_none_of_b s c hb]
    rcases hp : playerMoveAndCollide s s.player 0 FALL_SPEED with ⟨ok, pos1⟩
    cases hg : onGround s { s.player with pos := pos1 } with
    | none =>
        cases ok <;>
          simp only [hp, hg, MAX_BLOCKS] at * <;>
          split_ifs <;>
          simp_all [playerSetState_blocks]
    | some g =>
        have hnocap : ¬ (c.a = 1 ∧ s.player.blocks.length < MAX_BLOCKS) := by
          simp only [MAX_BLOCKS] at h4 ⊢
          omega
        cases ok <;>
          simp only [hp, hg, MAX_BLOCKS] at * <;>
          split_ifs <;>
          simp_all [playerSetState_blocks]

def c5Lifted (i : ℕ) : Block :=
  { id := i
    pos := { x := 96, y := -200 - 40 * (i : ℚ), ix := 1, iy := ⌊(-200 - 40 * (i : ℚ)) / 64⌋ }
    color := .red
    state := .lifted
    timer := 4
    star := false
    tweenRect := none }

def c5Player : Player :=
  { pos := { x := 96, y := 64, ix := 1, iy := 1 }
    width := 32, height := 70.4, jumpTime := 0, speed := 2
    state := .ground, wallriding := none, blocks := [10, 11, 12, 13] }

def c5State : GameState :=
  { time := 0, seed := 0, mode := .playing, player := c5Player
    cameraPos := { x := 0, y := 0, ix := 0, iy := 0 }
    blocks := [c5Lifted 10, c5Lifted 11, c5Lifted 12, c5Lifted 13,
               mkCexBlock 4 96 128 .blue .ground]
    nextBlockId := 14, bottomRow := 25, finishLineRow := 32, score := 0 }

def c5Ctrl : Controller := { up := 0, down := 0, left := 0, right := 0, a := 1, b := 0 }

/-- Witness: C5 applied at a grounded player at carry capacity with the lift
action firing and a ground block underfoot. -/
theorem c5_carry_capacity_witness :
    (updatePlaying (fun _ => 0) c5State c5Ctrl).player.blocks.length ≤ MAX_BLOCKS ∧
    (playerUpdate c5State c5Ctrl).blocks = c5State.blocks ∧
    (playerUpdate c5State c5Ctrl).player.blocks.length = MAX_BLOCKS := by
  refine ⟨?_, ?_⟩
  · exact c5_carry_capacity.1 (fun _ => 0) c5State c5Ctrl (by with_unfolding_all decide)
  · exact c5_carry_capacity.2 c5State c5Ctrl (by with_unfolding_all decide)
      (by with_unfolding_all decide) (by with_unfolding_all decide)
      (by with_unfolding_all decide) (by with_unfolding_all decide)

/-! ## C2: the pickable-overlap invariant is violated by blockSettle -/

def zeroController : Controller := { up := 0, down := 0, left := 0, right := 0, a := 0, b := 0 }

def c2Player : Player :=
  { pos := { x := 96, y := -50, ix := 1, iy := -1 }
    width := 32, height := 70.4, jumpTime := 0, speed := 2
    state := .falling, wallriding := none, blocks := [] }

/-- A thrown block (id 3) lands on a falling block (id 2) in column 3; the
settle probe strip starts at pos.x (half a block right of the block's own
rectangle), finds the column-4 block (id 1) first and snaps one cell above
it, two pixels down into the block it actually rests on. -/
def c2State : GameState :=
  { time := 0, seed := 0, mode := .playing, player := c2Player
    cameraPos := { x := 0, y := 0, ix := 0, iy := 0 }
    blocks := [mkCexBlock 0 288 198 .red .idle, mkCexBlock 1 288 134 .green .ground,
               mkCexBlock 2 224 128 .blue .ground, mkCexBlock 3 224 62 .yellow .thrown]
    nextBlockId := 4, bottomRow := 19, finishLineRow := 32, score := 0 }

/-- C2 evaluation: before the tick no two pickable blocks overlap and no
pickable block overlaps the player, yet after one completed playing-mode
tick two pickable blocks (the settled block id 3, now ground, and the
falling block id 2) overlap. -/
theorem c2_overlap_bug :
    (∀ b1 ∈ c2State.blocks, ∀ b2 ∈ c2State.blocks,
      b1.id ≠ b2.id → blockIsPickable b1 = true → blockIsPickable b2 = true →
      checkAABB (blockRectangle b1) (blockRectangle b2) = false) ∧
    (∀ b ∈ c2State.blocks, blockIsPickable b = true →
      checkAABB (blockRectangle b) (playerRectangle c2State.player) = false) ∧
    (∃ b1 ∈ (updatePlaying (fun _ => 0) c2State zeroController).blocks,
      ∃ b2 ∈ (updatePlaying (fun _ => 0) c2State zeroController).blocks,
        b1.id ≠ b2.id ∧ blockIsPickable b1 = true ∧ blockIsPickable b2 = true ∧
        checkAABB (blockRectangle b1) (blockRectangle b2) = true) := by
  with_unfolding_all decide

/-! ## C7: onGround does not filter by blockIsPickable -/

def c7Player : Player :=
  { pos := { x := 96, y := 64, ix := 1, iy := 1 }
    width := 32, height := 70.4, jumpTime := 0, speed := 2
    state := .ground, wallriding := none, blocks := [] }

/-- A thrown block (id 3) hangs just under the player's feet while the
player stands on a ground block (id 4). -/
def c7State : GameState :=
  { time := 0, seed := 0, mode := .playing, player := c7Player
    cameraPos := { x := 0, y := 0, ix := 0, iy := 0 }
    blocks := [mkCexBlock 3 96 130 .yellow .thrown, mkCexBlock 4 96 128 .blue .ground]
    nextBlockId := 5, bottomRow := 21, finishLineRow := 32, score := 0 }

def c7Ctrl : Controller := { up := 0, down := 0, left := 0, right := 0, a := 1, b := 0 }

/-- C7 evaluation: onGround returns the first overlapping block regardless
of its state, so the lift action picks up a block whose state immediately
beforehand is thrown: after the player update the thrown block id 3 is
lifted and sits in the carry list. -/
theorem c7_pickup_bug :
    (∃ t ∈ c7State.blocks, t.id = 3 ∧ t.state = .thrown) ∧
    onGround c7State c7Player = some (mkCexBlock 3 96 130 .yellow .thrown) ∧
    (∃ t ∈ (playerUpdate c7State c7Ctrl).blocks, t.id = 3 ∧ t.state = .lifted) ∧
    3 ∈ (playerUpdate c7State c7Ctrl).player.blocks := by
  with_unfolding_all decide

/-! ## C8: the row spawner trigger and effect -/

theorem spawnCols_bottomRow (rand : ℕ → ℚ) (row : ℤ) : ∀ (n : ℕ) (s : GameState),
    (spawnCols rand row s n).bottomRow = s.bottomRow := by
  intro n
  induction n with
  | zero => intro s; rfl
  | succ m ih =>
      intro s
      unfold spawnCols
      rw [ih]
      split <;> rfl

theorem createBlockRow_bottomRow (rand : ℕ → ℚ) (s : GameState) :
    (createBlockRow rand s).bottomRow = s.bottomRow + 1 := by
  simp only [createBlockRow, drawRand]
  split
  · split <;> simp [spawnCols_bottomRow]
  · simp [spawnCols_bottomRow]

theorem spawnCols_blocks (rand : ℕ → ℚ) (row : ℤ) : ∀ (n : ℕ) (s : GameState),
    ∀ b ∈ (spawnCols rand row s n).blocks,
      b ∈ s.blocks ∨
      (b.state = .idle ∧ b.color ≠ .yellow ∧ b.pos.iy = row ∧
        0 ≤ b.pos.ix ∧ b.pos.ix < (GRID_WIDTH : ℤ) ∧ b.timer = 0) := by
  intro n
  induction n with
  | zero => intro s b hb; exact Or.inl hb
  | succ m ih =>
      intro s b hb
      unfold spawnCols at hb
      simp only [drawRand] at hb
      by_cases hcond : rand s.seed < 0.7
      · rw [if_pos hcond] at hb
        rcases ih _ b hb with hmem | hnew
        · unfold createBlock at hmem
          simp only [List.mem_append, List.mem_singleton] at hmem
          rcases hmem with hold | hnewb
          · exact Or.inl hold
          · subst hnewb
            refine Or.inr ⟨rfl, ?_, rfl, ?_, ?_, rfl⟩
            · unfold randomBlockColor
              split <;> simp
            · simp only
              omega
            · simp only [GRID_WIDTH]
              omega
        · exact Or.inr hnew
      · rw [if_neg hcond] at hb
        exact ih { s with seed := s.seed + 1 } b hb

theorem createBlockRow_blocks (rand : ℕ → ℚ) (s : GameState) :
    ∀ b ∈ (createBlockRow rand s).blocks,
      (∃ b0 ∈ s.blocks, b.id = b0.id ∧ b.state = b0.state ∧ b.color = b0.color ∧
        b.pos = b0.pos ∧ b.timer = b0.timer) ∨
      (b.state = .idle ∧ b.color ≠ .yellow ∧ b.pos.iy = s.bottomRow + 1 ∧
        0 ≤ b.pos.ix ∧ b.pos.ix < (GRID_WIDTH : ℤ) ∧ b.timer = 0) := by
  intro b hb
  have hcols := spawnCols_blocks rand (s.bottomRow + 1) GRID_WIDTH
    { s with bottomRow := s.bottomRow + 1 }
  have hfinish : (b ∈ (spawnCols rand (s.bottomRow + 1)
      { s with bottomRow := s.bottomRow + 1 } GRID_WIDTH).blocks ∨
      (∃ b' ∈ (spawnCols rand (s.bottomRow + 1)
        { s with bottomRow := s.bottomRow + 1 } GRID_WIDTH).blocks,
        b.id = b'.id ∧ b.state = b'.state ∧ b.color = b'.color ∧
        b.pos = b'.pos ∧ b.timer = b'.timer)) →
      (∃ b0 ∈ s.blocks, b.id = b0.id ∧ b.state = b0.state ∧ b.color = b0.color ∧
        b.pos = b0.pos ∧ b.timer = b0.timer) ∨
      (b.state = .idle ∧ b.color ≠ .yellow ∧ b.pos.iy = s.bottomRow + 1 ∧
        0 ≤ b.pos.ix ∧ b.pos.ix < (GRID_WIDTH : ℤ) ∧ b.timer = 0) := by
    intro hcase
    rcases hcase with hdirect | ⟨b', hb', hid, hst, hcol, hpos, htm⟩
    · rcases hcols b hdirect with hold | hnew
      · exact Or.inl ⟨b, hold, rfl, rfl, rfl, rfl, rfl⟩
      · exact Or.inr hnew
    · rcases hcols b' hb' with hold | hnew
      · exact Or.inl ⟨b', hold, hid, hst, hcol, hpos, htm⟩
      · refine Or.inr ⟨hst.trans hnew.1, ?_, ?_, ?_, ?_, htm.trans hnew.2.2.2.2.2⟩
        · rw [hcol]; exact hnew.2.1
        · rw [hpos]; exact hnew.2.2.1
        · rw [hpos]; exact hnew.2.2.2.1
        · rw [hpos]; exact hnew.2.2.2.2.1
  simp only [createBlockRow, drawRand] at hb
  by_cases hrow : Int.tmod (s.bottomRow + 1) 6 = 5
  · rw [if_pos hrow] at hb
    rcases hat : jsAtNeg (spawnCols rand (s.bottomRow + 1)
        { s with bottomRow := s.bottomRow + 1 } GRID_WIDTH).blocks
        (⌊rand (spawnCols rand (s.bottomRow + 1)
          { s with bottomRow := s.bottomRow + 1 } GRID_WIDTH).seed *
          (GRID_WIDTH : ℚ) * 2⌋).toNat with _ | tid <;>
      simp only [hat] at hb
    · exact hfinish (Or.inl hb)
    · simp only [List.mem_map] at hb
      rcases hb with ⟨b', hb', hmap⟩
      apply hfinish
      right
      refine ⟨b', hb', ?_⟩
      subst hmap
      by_cases hbid : b'.id = tid <;> simp [hbid]
  · rw [if_neg hrow] at hb
    exact hfinish (Or.inl hb)

theorem spawnLoop_post : ∀ (fuel : ℕ) (rand : ℕ → ℚ) (s : GameState),
    s.player.pos.iy + BLOCK_ROW_BUFFER - s.bottomRow ≤ (fuel : ℤ) →
    ¬ ((spawnLoop rand fuel s).player.pos.iy + BLOCK_ROW_BUFFER >
        (spawnLoop rand fuel s).bottomRow) := by
  intro fuel
  induction fuel with
  | zero =>
      intro rand s h
      simp only [spawnLoop]
      omega
  | succ n ih =>
      intro rand s h
      unfold spawnLoop
      split
      · apply ih
        rw [createBlockRow_bottomRow]
        have := congrArg Player.pos (createBlockRow_player rand s)
        rw [this]
        push_cast
        omega
      · omega

/-- C8 counterexample to the trigger condition as stated: with the player
at row 0 and bottomRow 19, the claimed condition (player row minus the
buffer exceeds the last generated row) is false, yet the spawn loop runs
and generates a row. -/
def c8State : GameState :=
  { time := 0, seed := 0, mode := .playing, player := c4Player
    cameraPos := { x := 0, y := 0, ix := 0, iy := 0 }
    blocks := [], nextBlockId := 0, bottomRow := 19, finishLineRow := 32, score := 0 }

theorem c8_trigger_cex :
    ¬ (c8State.player.pos.iy - BLOCK_ROW_BUFFER > c8State.bottomRow) ∧
    (runSpawn (fun _ => 1/2) c8State).bottomRow ≠ c8State.bottomRow := by
  with_unfolding_all decide

/-- C8 amended: the row spawner runs exactly when the player's row PLUS the
look-ahead buffer (BLOCK_ROW_BUFFER = 20) exceeds the last generated row
index; each activation generates exactly one row, incrementing the
bottom-row index by one, and every block it adds is a fresh idle block in
the new row at one of the 8 columns whose color is never the yellow
reserved for bonus logic (pre-existing blocks keep id, state, color,
position and timer, only the bonus star flag of one block may be set);
when the spawn phase finishes the trigger condition no longer holds. -/
theorem c8_row_spawner :
    (∀ (rand : ℕ → ℚ) (s : GameState),
      ¬ (s.player.pos.iy + BLOCK_ROW_BUFFER > s.bottomRow) → runSpawn rand s = s) ∧
    (∀ (rand : ℕ → ℚ) (s : GameState),
      (createBlockRow rand s).bottomRow = s.bottomRow + 1) ∧
    (∀ (rand : ℕ → ℚ) (s : GameState), ∀ b ∈ (createBlockRow rand s).blocks,
      (∃ b0 ∈ s.blocks, b.id = b0.id ∧ b.state = b0.state ∧ b.color = b0.color ∧
        b.pos = b0.pos ∧ b.timer = b0.timer) ∨
      (b.state = .idle ∧ b.color ≠ .yellow ∧ b.pos.iy = s.bottomRow + 1 ∧
        0 ≤ b.pos.ix ∧ b.pos.ix < (GRID_WIDTH : ℤ) ∧ b.timer = 0)) ∧
    (∀ (rand : ℕ → ℚ) (s : GameState),
      ¬ ((runSpawn rand s).player.pos.iy + BLOCK_ROW_BUFFER >
          (runSpawn rand s).bottomRow)) := by
  refine ⟨?_, createBlockRow_bottomRow, createBlockRow_blocks, ?_⟩
  · intro rand s h
    unfold runSpawn
    have h0 : (s.player.pos.iy + BLOCK_ROW_BUFFER - s.bottomRow).toNat = 0 := by omega
    rw [h0]
    rfl
  · intro rand s
    apply spawnLoop_post
    omega

set_option maxRecDepth 8000 in
/-- Witness: C8's amended theorem applied at concrete states: a state where
the trigger is off (spawn loop is the identity), and the c8State row
generation (bottom row 19 → 20, head block of the new row is a fresh green
idle block at column 0 of row 20). -/
theorem c8_row_spawner_witness :
    runSpawn (fun _ => 0) c7State = c7State ∧
    (createBlockRow (fun _ => 1/2) c8State).bottomRow = c8State.bottomRow + 1 ∧
    ((∃ b0 ∈ c8State.blocks,
        (mkCexBlock 0 32 1280 .green .idle).id = b0.id ∧
        (mkCexBlock 0 32 1280 .green .idle).state = b0.state ∧
        (mkCexBlock 0 32 1280 .green .idle).color = b0.color ∧
        (mkCexBlock 0 32 1280 .green .idle).pos = b0.pos ∧
        (mkCexBlock 0 32 1280 .green .idle).timer = b0.timer) ∨
      ((mkCexBlock 0 32 1280 .green .idle).state = .idle ∧
        (mkCexBlock 0 32 1280 .green .idle).color ≠ .yellow ∧
        (mkCexBlock 0 32 1280 .green .idle).pos.iy = c8State.bottomRow + 1 ∧
        0 ≤ (mkCexBlock 0 32 1280 .green .idle).pos.ix ∧
        (mkCexBlock 0 32 1280 .green .idle).pos.ix < (GRID_WIDTH : ℤ) ∧
        (mkCexBlock 0 32 1280 .green .idle).timer = 0)) ∧
    ¬ ((runSpawn (fun _ => 1/2) c8State).player.pos.iy + BLOCK_ROW_BUFFER >
        (runSpawn (fun _ => 1/2) c8State).bottomRow) := by
  refine ⟨?_, ?_, ?_, ?_⟩
  · exact c8_row_spawner.1 (fun _ => 0) c7State (by with_unfolding_all decide)
  · exact c8_row_spawner.2.1 (fun _ => 1/2) c8State
  · exact c8_row_spawner.2.2.1 (fun _ => 1/2) c8State
      (mkCexBlock 0 32 1280 .green .idle) (by with_unfolding_all decide)
  · exact c8_row_spawner.2.2.2 (fun _ => 1/2) c8State

/-! ## C1: foundations for the match-solver proof -/

theorem blocksMatch_color (b1 b2 : Block) (h : blocksMatch b1 b2 = true) :
    b1.color = b2.color := by
  unfold blocksMatch at h
  split at h
  · exact absurd h (by simp)
  · exact of_decide_eq_true h

theorem blocksMatch_solvable (b1 b2 : Block) (h : blocksMatch b1 b2 = true) :
    blockIsSolvable b1 = true ∧ blockIsSolvable b2 = true := by
  unfold blocksMatch at h
  split at h
  · exact absurd h (by simp)
  · rename_i hcond
    simp only [Bool.or_eq_true, decide_eq_true_eq, not_or] at hcond
    exact ⟨Bool.ne_false_iff.mp hcond.1, Bool.ne_false_iff.mp hcond.2⟩

theorem blocksMatch_of (b1 b2 : Block) (h1 : blockIsSolvable b1 = true)
    (h2 : blockIsSolvable b2 = true) (hc : b1.color = b2.color) :
    blocksMatch b1 b2 = true := by
  unfold blocksMatch
  rw [if_neg (by simp [h1, h2])]
  exact decide_eq_true hc

/-- The linear blockmap index a block is written at. -/
def cellKey (minY : ℤ) (b : Block) : ℤ :=
  (b.pos.iy - minY) * (GRID_WIDTH : ℤ) + b.pos.ix

theorem buildMap_mem (minY maxY : ℤ) : ∀ (l : List Block) (idx : ℤ) (b : Block),
    buildMap minY maxY l idx = some b →
    b ∈ l ∧ minY ≤ b.pos.iy ∧ b.pos.iy ≤ maxY ∧ idx = cellKey minY b := by
  intro l
  induction l with
  | nil =>
      intro idx b h
      exact Option.noConfusion h
  | cons c rest ih =>
      intro idx b h
      unfold buildMap at h
      split at h
      · rename_i c' heq
        have hb : c' = b := Option.some.inj h
        rw [hb] at heq
        obtain ⟨hmem, hw1, hw2, hk⟩ := ih idx b heq
        exact ⟨List.mem_cons_of_mem c hmem, hw1, hw2, hk⟩
      · split at h
        · rename_i hcond
          have hb : c = b := Option.some.inj h
          subst hb
          exact ⟨List.mem_cons_self c rest, hcond.1, hcond.2.1, hcond.2.2⟩
        · exact absurd h (by simp)

theorem buildMap_none (minY maxY : ℤ) : ∀ (l : List Block) (idx : ℤ),
    (∀ c ∈ l, minY ≤ c.pos.iy → c.pos.iy ≤ maxY → cellKey minY c ≠ idx) →
    buildMap minY maxY l idx = none := by
  intro l
  induction l with
  | nil => intro idx _; rfl
  | cons c rest ih =>
      intro idx h
      unfold buildMap
      rw [ih idx (fun c' hc' => h c' (List.mem_cons_of_mem c hc'))]
      exact if_neg (fun hcond =>
        h c (List.mem_cons_self c rest) hcond.1 hcond.2.1 hcond.2.2.symm)

theorem cellKey_inj (minY : ℤ) (a c : Block)
    (ha : 0 ≤ a.pos.ix ∧ a.pos.ix < (GRID_WIDTH : ℤ))
    (hc : 0 ≤ c.pos.ix ∧ c.pos.ix < (GRID_WIDTH : ℤ))
    (h : cellKey minY a = cellKey minY c) :
    a.pos.ix = c.pos.ix ∧ a.pos.iy = c.pos.iy := by
  unfold cellKey at h
  simp only [GRID_WIDTH] at *
  omega

theorem buildMap_self (minY maxY : ℤ) : ∀ (l : List Block),
    (∀ c ∈ l, (minY ≤ c.pos.iy ∧ c.pos.iy ≤ maxY) →
      0 ≤ c.pos.ix ∧ c.pos.ix < (GRID_WIDTH : ℤ)) →
    List.Pairwise (fun a c =>
      (minY ≤ a.pos.iy ∧ a.pos.iy ≤ maxY) → (minY ≤ c.pos.iy ∧ c.pos.iy ≤ maxY) →
      ¬ (a.pos.ix = c.pos.ix ∧ a.pos.iy = c.pos.iy)) l →
    ∀ b ∈ l, minY ≤ b.pos.iy → b.pos.iy ≤ maxY →
    buildMap minY maxY l (cellKey minY b) = some b := by
  intro l
  induction l with
  | nil =>
      intro _ _ b hb
      exact absurd hb (by simp)
  | cons c rest ih =>
      intro hix hpw b hb hw1 hw2
      rcases List.mem_cons.mp hb with hbc | hbrest
      · subst hbc
        unfold buildMap
        rw [buildMap_none minY maxY rest (cellKey minY b) (fun c' hc' hcw1 hcw2 hkey => by
          have hrel := (List.pairwise_cons.mp hpw).1 c' hc'
          have hbix := hix b (List.mem_cons_self b rest) ⟨hw1, hw2⟩
          have hcix := hix c' (List.mem_cons_of_mem b hc') ⟨hcw1, hcw2⟩
          exact hrel ⟨hw1, hw2⟩ ⟨hcw1, hcw2⟩ (cellKey_inj minY b c' hbix hcix hkey.symm))]
        exact if_pos ⟨hw1, hw2, rfl⟩
      · unfold buildMap
        rw [ih (fun c' hc' => hix c' (List.mem_cons_of_mem c hc'))
          (List.pairwise_cons.mp hpw).2 b hbrest hw1 hw2]

theorem takeStreak_match (b : Block) : ∀ (opts : List (Option Block)) (w : Block),
    w ∈ takeStreak b opts → blocksMatch b w = true := by
  intro opts
  induction opts with
  | nil => intro w hw; exact absurd hw (by simp [takeStreak])
  | cons o rest ih =>
      intro w hw
      cases o with
      | none => exact absurd hw (by simp [takeStreak])
      | some nb =>
          unfold takeStreak at hw
          split at hw
          · rcases List.mem_cons.mp hw with hnb | hmem
            · subst hnb; assumption
            · exact ih w hmem
          · exact absurd hw (by simp)

theorem takeStreak_get (b : Block) : ∀ (opts : List (Option Block)) (t : ℕ) (w : Block),
    (takeStreak b opts).get? t = some w →
    opts.get? t = some (some w) ∧ blocksMatch b w = true := by
  intro opts
  induction opts with
  | nil => intro t w h; exact absurd h (by simp [takeStreak])
  | cons o rest ih =>
      intro t w h
      cases o with
      | none => exact absurd h (by simp [takeStreak])
      | some nb =>
          unfold takeStreak at h
          split at h
          · cases t with
            | zero =>
                simp only [List.get?] at h
                simp only [Option.some.injEq] at h
                subst h
                exact ⟨rfl, by assumption⟩
            | succ t' =>
                simp only [List.get?] at h
                exact ih t' w h
          · exact absurd h (by simp)

theorem takeStreak_full (b : Block) : ∀ (opts : List (Option Block)) (n : ℕ),
    (∀ t, t < n → ∃ u, opts.get? t = some (some u) ∧ blocksMatch b u = true) →
    ∀ t, t < n → ∀ u, opts.get? t = some (some u) →
    (takeStreak b opts).get? t = some u := by
  intro opts
  induction opts with
  | nil =>
      intro n _ t _ u hu
      exact absurd hu (by simp)
  | cons o rest ih =>
      intro n hall t ht u hu
      cases n with
      | zero => exact absurd ht (Nat.not_lt_zero t)
      | succ n' =>
          obtain ⟨u0, hu0, hm0⟩ := hall 0 (Nat.zero_lt_succ n')
          simp only [List.get?, Option.some.injEq] at hu0
          subst hu0
          unfold takeStreak
          rw [if_pos hm0]
          cases t with
          | zero =>
              simp only [List.get?] at hu ⊢
              exact Option.some.inj hu
          | succ t' =>
              simp only [List.get?] at hu ⊢
              exact ih n' (fun t2 ht2 => hall (t2 + 1) (Nat.succ_lt_succ ht2)) t'
                (Nat.lt_of_succ_lt_succ ht) u hu

theorem streakAccepted_iff (l : List Block) :
    streakAccepted l = true ↔
    3 ≤ l.length ∧ ∃ w ∈ l, w.state = .ground ∨ w.state = .solving := by
  simp [streakAccepted, List.any_eq_true]

theorem opts_get_range'_map (f : ℕ → Option Block) (st len t : ℕ) (h : t < len) :
    ((List.range' st len).map f).get? t = some (f (st + t)) := by
  rw [List.get?_map, List.get?_eq_getElem?, List.getElem?_range' _ _ h]
  simp

/-! ## C1: scan structure lemmas -/

/-- Well-formedness of a state for the scan: blocks inside the scanned
window sit at in-range columns, no two window blocks share a grid cell, and
block ids are unique. -/
@[reducible] def ScanWF (s : GameState) : Prop :=
  (∀ b ∈ s.blocks, (scanMinY s ≤ b.pos.iy ∧ b.pos.iy ≤ scanMaxY s) →
    0 ≤ b.pos.ix ∧ b.pos.ix < (GRID_WIDTH : ℤ)) ∧
  List.Pairwise (fun a c =>
    (scanMinY s ≤ a.pos.iy ∧ a.pos.iy ≤ scanMaxY s) →
    (scanMinY s ≤ c.pos.iy ∧ c.pos.iy ≤ scanMaxY s) →
    ¬ (a.pos.ix = c.pos.ix ∧ a.pos.iy = c.pos.iy)) s.blocks ∧
  (s.blocks.map Block.id).Nodup

/-- A horizontal or vertical run in the sense of the claim: at least three
blocks of the collection on contiguous cells along one axis, all of the
same color and all in solvable states, at least one of them resting
(ground or solving). -/
@[reducible] def IsStreakRun (s : GameState) (x0 y0 dx dy : ℤ) (bs : List Block) : Prop :=
  3 ≤ bs.length ∧
  ((dx = 1 ∧ dy = 0) ∨ (dx = 0 ∧ dy = 1)) ∧
  (∀ (t : ℕ) (ht : t < bs.length),
    bs.get ⟨t, ht⟩ ∈ s.blocks ∧
    (bs.get ⟨t, ht⟩).pos.ix = x0 + dx * (t : ℤ) ∧
    (bs.get ⟨t, ht⟩).pos.iy = y0 + dy * (t : ℤ)) ∧
  (∀ a ∈ bs, ∀ c ∈ bs, a.color = c.color) ∧
  (∀ a ∈ bs, blockIsSolvable a = true) ∧
  (∃ a ∈ bs, a.state = .ground ∨ a.state = .solving)

theorem scanMap_at_cell (s : GameState) (hwf : ScanWF s) (j : ℤ) (i : ℕ)
    (hi : i < GRID_WIDTH) (b : Block)
    (hb : scanMap s (j * (GRID_WIDTH : ℤ) + (i : ℤ)) = some b) :
    b ∈ s.blocks ∧ b.pos.ix = (i : ℤ) ∧ b.pos.iy = scanMinY s + j ∧
    scanMinY s ≤ b.pos.iy ∧ b.pos.iy ≤ scanMaxY s := by
  obtain ⟨hmem, hw1, hw2, hk⟩ := buildMap_mem (scanMinY s) (scanMaxY s) s.blocks _ b hb
  have hix := hwf.1 b hmem ⟨hw1, hw2⟩
  unfold cellKey at hk
  simp only [GRID_WIDTH] at hk hix hi
  refine ⟨hmem, ?_, ?_, hw1, hw2⟩ <;> omega

theorem scanMap_self (s : GameState) (hwf : ScanWF s) (b : Block)
    (hb : b ∈ s.blocks) (hw1 : scanMinY s ≤ b.pos.iy) (hw2 : b.pos.iy ≤ scanMaxY s) :
    scanMap s ((b.pos.iy - scanMinY s) * (GRID_WIDTH : ℤ) + b.pos.ix) = some b :=
  buildMap_self (scanMinY s) (scanMaxY s) s.blocks hwf.1 hwf.2.1 b hb hw1 hw2

theorem hStreak_head (m : ℤ → Option Block) (j i : ℕ) (b : Block) :
    hStreakAt m j i b = b :: takeStreak b
      ((List.range' (i + 1) (GRID_WIDTH - (i + 1))).map
        (fun k : ℕ => m ((j : ℤ) * (GRID_WIDTH : ℤ) + (k : ℤ)))) := rfl

theorem vStreak_head (m : ℤ → Option Block) (height j i : ℕ) (b : Block) :
    vStreakAt m height j i b = b :: takeStreak b
      ((List.range' (j + 1) (height - (j + 1))).map
        (fun k : ℕ => m ((k : ℤ) * (GRID_WIDTH : ℤ) + (i : ℤ)))) := rfl

theorem hStreak_struct (s : GameState) (hwf : ScanWF s) (j i : ℕ)
    (hi : i < GRID_WIDTH) (b : Block)
    (hb : scanMap s ((j : ℤ) * (GRID_WIDTH : ℤ) + (i : ℤ)) = some b) :
    ∀ (t : ℕ) (w : Block), (hStreakAt (scanMap s) j i b).get? t = some w →
      w ∈ s.blocks ∧ w.pos.ix = (i : ℤ) + (t : ℤ) ∧
      w.pos.iy = scanMinY s + (j : ℤ) := by
  intro t
  cases t with
  | zero =>
      intro w hw
      have hwb : b = w := Option.some.inj hw
      subst hwb
      have hcell := scanMap_at_cell s hwf (j : ℤ) i hi b hb
      exact ⟨hcell.1, by simpa using hcell.2.1, by simpa using hcell.2.2.1⟩
  | succ t' =>
      intro w hw
      have hw' : (takeStreak b ((List.range' (i + 1) (GRID_WIDTH - (i + 1))).map
          (fun k : ℕ => scanMap s ((j : ℤ) * (GRID_WIDTH : ℤ) + (k : ℤ))))).get? t' =
          some w := hw
      obtain ⟨hopt, _hm⟩ := takeStreak_get b _ t' w hw'
      have htlen : t' < GRID_WIDTH - (i + 1) := by
        obtain ⟨hlen, _⟩ := List.get?_eq_some.mp hopt
        simpa using hlen
      rw [opts_get_range'_map _ (i + 1) (GRID_WIDTH - (i + 1)) t' htlen] at hopt
      have hcell := scanMap_at_cell s hwf (j : ℤ) (i + 1 + t')
        (by simp only [GRID_WIDTH] at hi htlen ⊢; omega) w (Option.some.inj hopt)
      refine ⟨hcell.1, ?_, by simpa using hcell.2.2.1⟩
      rw [hcell.2.1]
      push_cast
      ring

theorem vStreak_struct (s : GameState) (hwf : ScanWF s) (height j i : ℕ)
    (hi : i < GRID_WIDTH) (b : Block)
    (hb : scanMap s ((j : ℤ) * (GRID_WIDTH : ℤ) + (i : ℤ)) = some b) :
    ∀ (t : ℕ) (w : Block), (vStreakAt (scanMap s) height j i b).get? t = some w →
      w ∈ s.blocks ∧ w.pos.ix = (i : ℤ) ∧
      w.pos.iy = scanMinY s + (j : ℤ) + (t : ℤ) := by
  intro t
  cases t with
  | zero =>
      intro w hw
      have hwb : b = w := Option.some.inj hw
      subst hwb
      have hcell := scanMap_at_cell s hwf (j : ℤ) i hi b hb
      exact ⟨hcell.1, by simpa using hcell.2.1, by simpa using hcell.2.2.1⟩
  | succ t' =>
      intro w hw
      have hw' : (takeStreak b ((List.range' (j + 1) (height - (j + 1))).map
          (fun k : ℕ => scanMap s ((k : ℤ) * (GRID_WIDTH : ℤ) + (i : ℤ))))).get? t' =
          some w := hw
      obtain ⟨hopt, _hm⟩ := takeStreak_get b _ t' w hw'
      have htlen : t' < height - (j + 1) := by
        obtain ⟨hlen, _⟩ := List.get?_eq_some.mp hopt
        simpa using hlen
      rw [opts_get_range'_map _ (j + 1) (height - (j + 1)) t' htlen] at hopt
      have hcell := scanMap_at_cell s hwf ((j + 1 + t' : ℕ) : ℤ) i hi w
        (Option.some.inj hopt)
      refine ⟨hcell.1, by simpa using hcell.2.1, ?_⟩
      rw [hcell.2.2.1]
      push_cast
      ring

theorem mem_scanStreaks (s : GameState) (l : List Block) :
    l ∈ scanStreaks s ↔ ∃ j, j < scanHeight s ∧ ∃ i, i < GRID_WIDTH ∧
      l ∈ streaksAt (scanMap s) (scanHeight s) j i := by
  simp [scanStreaks, List.mem_flatMap, List.mem_range]

theorem streaksAt_sub (m : ℤ → Option Block) (height j i : ℕ) (l : List Block)
    (hl : l ∈ streaksAt m height j i) :
    ∃ b, m ((j : ℤ) * (GRID_WIDTH : ℤ) + (i : ℤ)) = some b ∧
      streakAccepted l = true ∧
      (l = hStreakAt m j i b ∨ l = vStreakAt m height j i b) := by
  unfold streaksAt at hl
  cases hm : m ((j : ℤ) * (GRID_WIDTH : ℤ) + (i : ℤ)) with
  | none => rw [hm] at hl; exact absurd hl (by simp)
  | some b =>
      rw [hm] at hl
      simp only [List.mem_append] at hl
      rcases hl with h1 | h2
      · split at h1
        · rename_i hacc
          simp only [List.mem_singleton] at h1
          exact ⟨b, rfl, h1 ▸ hacc, Or.inl h1⟩
        · exact absurd h1 (by simp)
      · split at h2
        · rename_i hacc
          simp only [List.mem_singleton] at h2
          exact ⟨b, rfl, h2 ▸ hacc, Or.inr h2⟩
        · exact absurd h2 (by simp)

theorem hStreak_mem_streaksAt (m : ℤ → Option Block) (height j i : ℕ) (b : Block)
    (hm : m ((j : ℤ) * (GRID_WIDTH : ℤ) + (i : ℤ)) = some b)
    (hacc : streakAccepted (hStreakAt m j i b) = true) :
    hStreakAt m j i b ∈ streaksAt m height j i := by
  unfold streaksAt
  rw [hm]
  simp only [List.mem_append]
  left
  rw [if_pos hacc]
  exact List.mem_singleton_self _

theorem vStreak_mem_streaksAt (m : ℤ → Option Block) (height j i : ℕ) (b : Block)
    (hm : m ((j : ℤ) * (GRID_WIDTH : ℤ) + (i : ℤ)) = some b)
    (hacc : streakAccepted (vStreakAt m height j i b) = true) :
    vStreakAt m height j i b ∈ streaksAt m height j i := by
  unfold streaksAt
  rw [hm]
  simp only [List.mem_append]
  right
  rw [if_pos hacc]
  exact List.mem_singleton_self _

theorem mem_solvedIds (s : GameState) (bid : ℕ) :
    bid ∈ solvedIds s ↔ ∃ l ∈ scanStreaks s, ∃ w ∈ l, w.id = bid := by
  simp [solvedIds, List.mem_flatMap, List.mem_map]

theorem checkSolutions_mem_of (s : GameState) (b : Block) (hb : b ∈ s.blocks)
    (hid : b.id ∈ solvedIds s) :
    ∃ b' ∈ (checkSolutions s).blocks, b'.id = b.id ∧ b'.state = .solving := by
  refine ⟨(if b.id ∈ solvedIds s then blockSetState b .solving else b),
    List.mem_map_of_mem _ hb, ?_, ?_⟩
  · rw [if_pos hid, blockSetState_id]
  · rw [if_pos hid, blockSetState_state]

theorem streak_cons_match (b : Block) (opts : List (Option Block)) :
    ∀ w ∈ b :: takeStreak b opts, w = b ∨ blocksMatch b w = true := by
  intro w hw
  rcases List.mem_cons.mp hw with h | h
  · exact Or.inl h
  · exact Or.inr (takeStreak_match b opts w h)

theorem streak_head_solvable (b : Block) (opts : List (Option Block))
    (hlen : 3 ≤ (b :: takeStreak b opts).length) : blockIsSolvable b = true := by
  have hne : takeStreak b opts ≠ [] := by
    intro h
    rw [h] at hlen
    simp at hlen
  obtain ⟨w, hw⟩ := List.exists_mem_of_ne_nil _ hne
  exact (blocksMatch_solvable b w (takeStreak_match b opts w hw)).1

theorem streak_colors (b : Block) (opts : List (Option Block)) :
    ∀ a ∈ b :: takeStreak b opts, ∀ c ∈ b :: takeStreak b opts,
      a.color = c.color := by
  intro a ha c hc
  have hca : a.color = b.color := by
    rcases streak_cons_match b opts a ha with h | h
    · rw [h]
    · exact (blocksMatch_color b a h).symm
  have hcc : c.color = b.color := by
    rcases streak_cons_match b opts c hc with h | h
    · rw [h]
    · exact (blocksMatch_color b c h).symm
  rw [hca, hcc]

theorem streak_solvable (b : Block) (opts : List (Option Block))
    (hlen : 3 ≤ (b :: takeStreak b opts).length) :
    ∀ a ∈ b :: takeStreak b opts, blockIsSolvable a = true := by
  intro a ha
  rcases streak_cons_match b opts a ha with h | h
  · rw [h]
    exact streak_head_solvable b opts hlen
  · exact (blocksMatch_solvable b a h).2

theorem scanStreaks_isRun (s : GameState) (hwf : ScanWF s) (l : List Block)
    (hl : l ∈ scanStreaks s) :
    ∃ x0 y0 dx dy, IsStreakRun s x0 y0 dx dy l := by
  obtain ⟨j, hj, i, hi, hat⟩ := (mem_scanStreaks s l).mp hl
  obtain ⟨b, hm, hacc, hcase⟩ := streaksAt_sub (scanMap s) (scanHeight s) j i l hat
  obtain ⟨hlen3, w0, hw0, hrest⟩ := (streakAccepted_iff l).mp hacc
  rcases hcase with hH | hV
  · subst hH
    refine ⟨(i : ℤ), scanMinY s + (j : ℤ), 1, 0, hlen3, Or.inl ⟨rfl, rfl⟩,
      ?_, streak_colors b _, streak_solvable b _ hlen3, w0, hw0, hrest⟩
    intro t ht
    have hp := hStreak_struct s hwf j i hi b hm t _ (List.get?_eq_get ht)
    refine ⟨hp.1, ?_, ?_⟩
    · rw [hp.2.1]
      ring
    · rw [hp.2.2]
      ring
  · subst hV
    refine ⟨(i : ℤ), scanMinY s + (j : ℤ), 0, 1, hlen3, Or.inr ⟨rfl, rfl⟩,
      ?_, streak_colors b _, streak_solvable b _ hlen3, w0, hw0, hrest⟩
    intro t ht
    have hp := vStreak_struct s hwf (scanHeight s) j i hi b hm t _ (List.get?_eq_get ht)
    refine ⟨hp.1, ?_, ?_⟩
    · rw [hp.2.1]
      ring
    · rw [hp.2.2]
      ring

theorem isRun_mem (s : GameState) (x0 y0 dx dy : ℤ) (bs : List Block)
    (h : IsStreakRun s x0 y0 dx dy bs) :
    ∀ w ∈ bs, w ∈ s.blocks := by
  intro w hw
  obtain ⟨⟨t, ht⟩, hget⟩ := List.mem_iff_get.mp hw
  have := (h.2.2.1 t ht).1
  rwa [hget] at this

/-- Soundness of the scan: every run whose members lie inside the scanned
window ends with all its members in state solving. -/
theorem run_solved (s : GameState) (hwf : ScanWF s) (x0 y0 dx dy : ℤ)
    (bs : List Block) (hrun : IsStreakRun s x0 y0 dx dy bs)
    (hwin : ∀ a ∈ bs, scanMinY s ≤ a.pos.iy ∧ a.pos.iy ≤ scanMaxY s) :
    ∀ a ∈ bs, ∃ b' ∈ (checkSolutions s).blocks, b'.id = a.id ∧ b'.state = .solving := by
  obtain ⟨hlen3, hdir, hpos, hcol, hsolv, hrest⟩ := hrun
  have h0lt : 0 < bs.length := by omega
  have hp0 := hpos 0 h0lt
  have hw0 := hwin _ (List.get_mem bs 0 h0lt)
  have hbix := hwf.1 _ hp0.1 hw0
  have hlast1 : bs.length - 1 < bs.length := by omega
  have hlastp := hpos (bs.length - 1) hlast1
  have hlastw := hwin _ (List.get_mem bs (bs.length - 1) hlast1)
  have hlastix := hwf.1 _ hlastp.1 hlastw
  rcases hdir with ⟨hdx, hdy⟩ | ⟨hdx, hdy⟩
  · subst hdx
    subst hdy
    have hb0x : (bs.get ⟨0, h0lt⟩).pos.ix = x0 := by simpa using hp0.2.1
    have hb0y : (bs.get ⟨0, h0lt⟩).pos.iy = y0 := by simpa using hp0.2.2
    rw [hb0x] at hbix
    have hi_def : ((x0.toNat : ℕ) : ℤ) = x0 := Int.toNat_of_nonneg hbix.1
    set i : ℕ := x0.toNat with hidef
    set j : ℕ := (y0 - scanMinY s).toNat with hjdef
    have hj_def : ((j : ℕ) : ℤ) = y0 - scanMinY s := by
      rw [hjdef]
      exact Int.toNat_of_nonneg (by rw [← hb0y]; omega)
    have hi8 : i < GRID_WIDTH := by
      have h2 := hbix.2
      simp only [GRID_WIDTH] at h2 ⊢
      omega
    rw [hlastp.2.1] at hlastix
    have hm0 : scanMap s ((j : ℤ) * (GRID_WIDTH : ℤ) + (i : ℤ)) =
        some (bs.get ⟨0, h0lt⟩) := by
      have hkey : (j : ℤ) * (GRID_WIDTH : ℤ) + (i : ℤ) =
          ((bs.get ⟨0, h0lt⟩).pos.iy - scanMinY s) * (GRID_WIDTH : ℤ) +
            (bs.get ⟨0, h0lt⟩).pos.ix := by
        rw [hb0x, hb0y, hi_def, hj_def]
      rw [hkey]
      exact scanMap_self s hwf _ hp0.1 hw0.1 hw0.2
    have hoptst : ∀ t, t < bs.length - 1 → ∀ ht1 : t + 1 < bs.length,
        ((List.range' (i + 1) (GRID_WIDTH - (i + 1))).map
          (fun k : ℕ => scanMap s ((j : ℤ) * (GRID_WIDTH : ℤ) + (k : ℤ)))).get? t =
          some (some (bs.get ⟨t + 1, ht1⟩)) := by
      intro t htlt ht1
      have hpt := hpos (t + 1) ht1
      have hwt := hwin _ (List.get_mem bs (t + 1) ht1)
      have htlen : t < GRID_WIDTH - (i + 1) := by
        have h2 := hlastix.2
        simp only [GRID_WIDTH] at h2 ⊢
        omega
      rw [opts_get_range'_map _ (i + 1) (GRID_WIDTH - (i + 1)) t htlen]
      have hkey : (j : ℤ) * (GRID_WIDTH : ℤ) + ((i + 1 + t : ℕ) : ℤ) =
          ((bs.get ⟨t + 1, ht1⟩).pos.iy - scanMinY s) * (GRID_WIDTH : ℤ) +
            (bs.get ⟨t + 1, ht1⟩).pos.ix := by
        rw [hpt.2.1, hpt.2.2]
        push_cast
        rw [hi_def, hj_def]
        ring
      rw [hkey]
      exact congrArg some (scanMap_self s hwf _ hpt.1 hwt.1 hwt.2)
    have hmatches : ∀ t, t < bs.length - 1 →
        ∃ u, ((List.range' (i + 1) (GRID_WIDTH - (i + 1))).map
          (fun k : ℕ => scanMap s ((j : ℤ) * (GRID_WIDTH : ℤ) + (k : ℤ)))).get? t =
          some (some u) ∧ blocksMatch (bs.get ⟨0, h0lt⟩) u = true := by
      intro t htlt
      have ht1 : t + 1 < bs.length := by omega
      refine ⟨bs.get ⟨t + 1, ht1⟩, hoptst t htlt ht1, blocksMatch_of _ _
        (hsolv _ (List.get_mem bs 0 h0lt)) (hsolv _ (List.get_mem bs (t + 1) ht1))
        (hcol _ (List.get_mem bs 0 h0lt) _ (List.get_mem bs (t + 1) ht1))⟩
    have hmem_in : ∀ a ∈ bs, a ∈ hStreakAt (scanMap s) j i (bs.get ⟨0, h0lt⟩) := by
      intro a ha
      obtain ⟨⟨t, ht⟩, hget⟩ := List.mem_iff_get.mp ha
      cases t with
      | zero =>
          rw [← hget]
          exact List.mem_cons_self _ _
      | succ t' =>
          have ht'lt : t' < bs.length - 1 := by omega
          have hopt := hoptst t' ht'lt ht
          rw [hget] at hopt
          have := takeStreak_full (bs.get ⟨0, h0lt⟩) _ (bs.length - 1)
            hmatches t' ht'lt a hopt
          exact List.mem_cons_of_mem _ (List.get?_mem this)
    have hacc : streakAccepted (hStreakAt (scanMap s) j i (bs.get ⟨0, h0lt⟩)) = true := by
      rw [streakAccepted_iff]
      constructor
      · have h2lt : bs.length - 2 < bs.length - 1 := by omega
        have ht1 : (bs.length - 2) + 1 < bs.length := by omega
        have hopt := hoptst (bs.length - 2) h2lt ht1
        have hfull := takeStreak_full (bs.get ⟨0, h0lt⟩) _ (bs.length - 1)
          hmatches (bs.length - 2) h2lt _ hopt
        have hlt := (List.get?_eq_some.mp hfull).1
        show 3 ≤ (_ :: _).length
        simp only [List.length_cons]
        omega
      · obtain ⟨a, ha, har⟩ := hrest
        exact ⟨a, hmem_in a ha, har⟩
    have hj_lt : j < scanHeight s := by
      have hy0 : y0 ≤ scanMaxY s := by rw [← hb0y]; exact hw0.2
      unfold scanHeight
      omega
    have hl_in : hStreakAt (scanMap s) j i (bs.get ⟨0, h0lt⟩) ∈ scanStreaks s :=
      (mem_scanStreaks s _).mpr ⟨j, hj_lt, i, hi8,
        hStreak_mem_streaksAt (scanMap s) (scanHeight s) j i _ hm0 hacc⟩
    intro a ha
    apply checkSolutions_mem_of s a (isRun_mem s x0 y0 1 0 bs
      ⟨hlen3, Or.inl ⟨rfl, rfl⟩, hpos, hcol, hsolv, hrest⟩ a ha)
    rw [mem_solvedIds]
    exact ⟨_, hl_in, a, hmem_in a ha, rfl⟩
  · subst hdx
    subst hdy
    have hb0x : (bs.get ⟨0, h0lt⟩).pos.ix = x0 := by simpa using hp0.2.1
    have hb0y : (bs.get ⟨0, h0lt⟩).pos.iy = y0 := by simpa using hp0.2.2
    rw [hb0x] at hbix
    have hi_def : ((x0.toNat : ℕ) : ℤ) = x0 := Int.toNat_of_nonneg hbix.1
    set i : ℕ := x0.toNat with hidef
    set j : ℕ := (y0 - scanMinY s).toNat with hjdef
    have hj_def : ((j : ℕ) : ℤ) = y0 - scanMinY s := by
      rw [hjdef]
      exact Int.toNat_of_nonneg (by rw [← hb0y]; omega)
    have hi8 : i < GRID_WIDTH := by
      have h2 := hbix.2
      simp only [GRID_WIDTH] at h2 ⊢
      omega
    rw [hlastp.2.2] at hlastw
    have hm0 : scanMap s ((j : ℤ) * (GRID_WIDTH : ℤ) + (i : ℤ)) =
        some (bs.get ⟨0, h0lt⟩) := by
      have hkey : (j : ℤ) * (GRID_WIDTH : ℤ) + (i : ℤ) =
          ((bs.get ⟨0, h0lt⟩).pos.iy - scanMinY s) * (GRID_WIDTH : ℤ) +
            (bs.get ⟨0, h0lt⟩).pos.ix := by
        rw [hb0x, hb0y, hi_def, hj_def]
      rw [hkey]
      exact scanMap_self s hwf _ hp0.1 hw0.1 hw0.2
    have hoptst : ∀ t, t < bs.length - 1 → ∀ ht1 : t + 1 < bs.length,
        ((List.range' (j + 1) (scanHeight s - (j + 1))).map
          (fun k : ℕ => scanMap s ((k : ℤ) * (GRID_WIDTH : ℤ) + (i : ℤ)))).get? t =
          some (some (bs.get ⟨t + 1, ht1⟩)) := by
      intro t htlt ht1
      have hpt := hpos (t + 1) ht1
      have hwt := hwin _ (List.get_mem bs (t + 1) ht1)
      have htlen : t < scanHeight s - (j + 1) := by
        unfold scanHeight
        omega
      rw [opts_get_range'_map _ (j + 1) (scanHeight s - (j + 1)) t htlen]
      have hkey : ((j + 1 + t : ℕ) : ℤ) * (GRID_WIDTH : ℤ) + (i : ℤ) =
          ((bs.get ⟨t + 1, ht1⟩).pos.iy - scanMinY s) * (GRID_WIDTH : ℤ) +
            (bs.get ⟨t + 1, ht1⟩).pos.ix := by
        rw [hpt.2.1, hpt.2.2]
        push_cast
        rw [hi_def, hj_def]
        ring
      rw [hkey]
      exact congrArg some (scanMap_self s hwf _ hpt.1 hwt.1 hwt.2)
    have hmatches : ∀ t, t < bs.length - 1 →
        ∃ u, ((List.range' (j + 1) (scanHeight s - (j + 1))).map
          (fun k : ℕ => scanMap s ((k : ℤ) * (GRID_WIDTH : ℤ) + (i : ℤ)))).get? t =
          some (some u) ∧ blocksMatch (bs.get ⟨0, h0lt⟩) u = true := by
      intro t htlt
      have ht1 : t + 1 < bs.length := by omega
      refine ⟨bs.get ⟨t + 1, ht1⟩, hoptst t htlt ht1, blocksMatch_of _ _
        (hsolv _ (List.get_mem bs 0 h0lt)) (hsolv _ (List.get_mem bs (t + 1) ht1))
        (hcol _ (List.get_mem bs 0 h0lt) _ (List.get_mem bs (t + 1) ht1))⟩
    have hmem_in : ∀ a ∈ bs,
        a ∈ vStreakAt (scanMap s) (scanHeight s) j i (bs.get ⟨0, h0lt⟩) := by
      intro a ha
      obtain ⟨⟨t, ht⟩, hget⟩ := List.mem_iff_get.mp ha
      cases t with
      | zero =>
          rw [← hget]
          exact List.mem_cons_self _ _
      | succ t' =>
          have ht'lt : t' < bs.length - 1 := by omega
          have hopt := hoptst t' ht'lt ht
          rw [hget] at hopt
          have := takeStreak_full (bs.get ⟨0, h0lt⟩) _ (bs.length - 1)
            hmatches t' ht'lt a hopt
          exact List.mem_cons_of_mem _ (List.get?_mem this)
    have hacc : streakAccepted
        (vStreakAt (scanMap s) (scanHeight s) j i (bs.get ⟨0, h0lt⟩)) = true := by
      rw [streakAccepted_iff]
      constructor
      · have h2lt : bs.length - 2 < bs.length - 1 := by omega
        have ht1 : (bs.length - 2) + 1 < bs.length := by omega
        have hopt := hoptst (bs.length - 2) h2lt ht1
        have hfull := takeStreak_full (bs.get ⟨0, h0lt⟩) _ (bs.length - 1)
          hmatches (bs.length - 2) h2lt _ hopt
        have hlt := (List.get?_eq_some.mp hfull).1
        show 3 ≤ (_ :: _).length
        simp only [List.length_cons]
        omega
      · obtain ⟨a, ha, har⟩ := hrest
        exact ⟨a, hmem_in a ha, har⟩
    have hj_lt : j < scanHeight s := by
      have hy0 : y0 ≤ scanMaxY s := by rw [← hb0y]; exact hw0.2
      unfold scanHeight
      omega
    have hl_in : vStreakAt (scanMap s) (scanHeight s) j i (bs.get ⟨0, h0lt⟩) ∈
        scanStreaks s :=
      (mem_scanStreaks s _).mpr ⟨j, hj_lt, i, hi8,
        vStreak_mem_streaksAt (scanMap s) (scanHeight s) j i _ hm0 hacc⟩
    intro a ha
    apply checkSolutions_mem_of s a (isRun_mem s x0 y0 0 1 bs
      ⟨hlen3, Or.inr ⟨rfl, rfl⟩, hpos, hcol, hsolv, hrest⟩ a ha)
    rw [mem_solvedIds]
    exact ⟨_, hl_in, a, hmem_in a ha, rfl⟩

/-- Completeness of the scan: any block whose state the scan changed lies on
a horizontal or vertical run of at least three same-colored solvable blocks
with a resting member. -/
theorem checkSolutions_changed (s : GameState) (hwf : ScanWF s) :
    ∀ b ∈ s.blocks, ∀ b' ∈ (checkSolutions s).blocks, b'.id = b.id →
      b'.state ≠ b.state →
      ∃ x0 y0 dx dy bs, IsStreakRun s x0 y0 dx dy bs ∧ b ∈ bs := by
  intro b hb b' hb' hid hst
  have hb'' : b' ∈ s.blocks.map (fun c =>
      if c.id ∈ solvedIds s then blockSetState c .solving else c) := hb'
  obtain ⟨c, hc, hfc⟩ := List.mem_map.mp hb''
  have hcid : b'.id = c.id := by
    rw [← hfc]
    split
    · exact blockSetState_id c .solving
    · rfl
  have hcb : c = b :=
    List.inj_on_of_nodup_map hwf.2.2 hc hb (by rw [← hcid, hid])
  subst hcb
  by_cases hsolved : c.id ∈ solvedIds s
  · obtain ⟨l, hl, w, hwl, hwid⟩ := (mem_solvedIds s c.id).mp hsolved
    obtain ⟨x0, y0, dx, dy, hrun⟩ := scanStreaks_isRun s hwf l hl
    have hwmem : w ∈ s.blocks := isRun_mem s x0 y0 dx dy l hrun w hwl
    have hwb : w = c := List.inj_on_of_nodup_map hwf.2.2 hwmem hc hwid
    exact ⟨x0, y0, dx, dy, l, hrun, hwb ▸ hwl⟩
  · exfalso
    apply hst
    rw [← hfc, if_neg hsolved]

/-- C1 (amended): on a state whose in-window blocks sit on distinct in-range
grid cells and whose block ids are unique, (soundness) every horizontal or
vertical run of three or more contiguous same-colored solvable blocks with a
resting member, all of whose members lie inside the scanned window of rows
[player.iy − BLOCK_ROW_BUFFER, bottomRow], has every member in state solving
when the scan finishes; and (completeness) any block whose state the scan
changes belongs to such a run of length at least three — in particular a
run of exactly two same-colored solvable blocks never causes a state
change. -/
theorem c1_streak_detection (s : GameState) (hwf : ScanWF s) :
    (∀ x0 y0 dx dy bs, IsStreakRun s x0 y0 dx dy bs →
      (∀ a ∈ bs, scanMinY s ≤ a.pos.iy ∧ a.pos.iy ≤ scanMaxY s) →
      ∀ a ∈ bs, ∃ b' ∈ (checkSolutions s).blocks, b'.id = a.id ∧
        b'.state = .solving) ∧
    (∀ b ∈ s.blocks, ∀ b' ∈ (checkSolutions s).blocks, b'.id = b.id →
      b'.state ≠ b.state →
      ∃ x0 y0 dx dy bs, IsStreakRun s x0 y0 dx dy bs ∧ b ∈ bs ∧
        3 ≤ bs.length) := by
  refine ⟨fun x0 y0 dx dy bs hrun hwin =>
    run_solved s hwf x0 y0 dx dy bs hrun hwin, ?_⟩
  intro b hb b' hb' hid hst
  obtain ⟨x0, y0, dx, dy, bs, hrun, hbmem⟩ :=
    checkSolutions_changed s hwf b hb b' hb' hid hst
  exact ⟨x0, y0, dx, dy, bs, hrun, hbmem, hrun.1⟩

def c1CexRun : List Block :=
  [mkCexBlock 1 160 0 .red .ground, mkCexBlock 2 224 0 .red .ground,
   mkCexBlock 3 288 0 .red .ground]

def c1CexState : GameState :=
  { time := 0, seed := 0, mode := .playing
    player := { pos := { x := 96, y := 1920, ix := 1, iy := 30 }
                width := 32, height := 70.4, jumpTime := 0, speed := 2
                state := .falling, wallriding := none, blocks := [] }
    cameraPos := { x := 0, y := 0, ix := 0, iy := 0 }
    blocks := c1CexRun
    nextBlockId := 4, bottomRow := 40, finishLineRow := 64, score := 0 }

/-- C1 counterexample to the unrestricted claim: a horizontal run of three
red ground blocks whose row lies above the scanned window (the player is 30
rows below it, so the scan starts at row 10) is a run in the claim's sense,
yet the scan leaves every block of the state untouched and no block ends up
solving. -/
theorem c1_out_of_window_cex :
    IsStreakRun c1CexState 2 0 1 0 c1CexRun ∧
    (∀ a ∈ c1CexRun, a.state = .ground) ∧
    (checkSolutions c1CexState).blocks = c1CexState.blocks ∧
    ∀ b ∈ (checkSolutions c1CexState).blocks, b.state ≠ .solving := by
  refine ⟨?_, ?_, ?_, ?_⟩ <;> with_unfolding_all decide

def c1WitRun : List Block :=
  [mkCexBlock 1 160 128 .red .ground, mkCexBlock 2 224 128 .red .ground,
   mkCexBlock 3 288 128 .red .ground]

def c1WitState : GameState :=
  { time := 0, seed := 0, mode := .playing
    player := { pos := { x := 96, y := 0, ix := 1, iy := 0 }
                width := 32, height := 70.4, jumpTime := 0, speed := 2
                state := .falling, wallriding := none, blocks := [] }
    cameraPos := { x := 0, y := 0, ix := 0, iy := 0 }
    blocks := c1WitRun
    nextBlockId := 4, bottomRow := 5, finishLineRow := 64, score := 0 }

/-- Witness for C1: an in-window horizontal run of three red ground blocks;
the scan marks its first member solving. -/
theorem c1_streak_detection_witness :
    ∃ b' ∈ (checkSolutions c1WitState).blocks,
      b'.id = (mkCexBlock 1 160 128 .red .ground).id ∧ b'.state = .solving :=
  (c1_streak_detection c1WitState (by with_unfolding_all decide)).1 2 2 1 0
    c1WitRun (by with_unfolding_all decide) (by with_unfolding_all decide)
    (mkCexBlock 1 160 128 .red .ground) (by with_unfolding_all decide)

end LD57
